import Mathlib

/-!
# EnergyYield diagnostics core: a shallow embedding

This file embeds the analytics / AI-engine core of the EnergyYield solar
tracker backend (`ai_engine.py`, `analytics.py`, `models.py`) in Lean 4 and
proves the behavioural claims of the specification against it.

Modelling conventions:
* timestamps are rational numbers of seconds (a `datetime` difference of one
  day is `86400`, one hour `3600`);
* Python floats are modelled as exact rationals `ℚ`; `math.sqrt` and
  `statistics.pstdev`'s square root are modelled by an arbitrary function
  parameter `sqrtF : ℚ → ℚ` (the claims under study never depend on its
  values);
* database tables are lists of row structures; a SQLAlchemy query
  `order_by(c).first()` is modelled as a deterministic fold picking the first
  row among those with the extremal column value;
* nullable columns (per `models.py`) are `Option`s, `x or 0.0` is `getD 0`;
* `round(x, n)` is `roundTo n x` over `ℚ`.
-/

namespace EnergyYield

/-- `_clamp(val, lo, hi) = max(lo, min(hi, val))` from `ai_engine.py`. -/
def clampQ (val : ℚ) (lo : ℚ := 0) (hi : ℚ := 1) : ℚ :=
  max lo (min hi val)

/-- Arithmetic mean of a list of rationals (`statistics.mean`); 0 on the
empty list (callers guard emptiness exactly as the Python code does). -/
def meanQ (l : List ℚ) : ℚ :=
  l.sum / (l.length : ℚ)

/-- Population variance (`statistics.pstdev` squared): mean squared
deviation from the mean. -/
def pvarQ (l : List ℚ) : ℚ :=
  meanQ (l.map (fun x => (x - meanQ l) ^ 2))

/-- Python's `round(x, n)` on our exact rationals. -/
def roundTo (n : ℕ) (q : ℚ) : ℚ :=
  (round (q * (10 : ℚ) ^ n) : ℤ) / (10 : ℚ) ^ n

/-- First element among those with the maximal key (models
`order_by(col.desc()).first()`; `none` on the empty list). -/
def pickMaxBy (key : α → ℚ) (l : List α) : Option α :=
  l.foldl
    (fun acc a =>
      match acc with
      | none => some a
      | some b => if key b < key a then some a else some b)
    none

/-- First element among those with the minimal key (models
`order_by(col.asc()).first()`). -/
def pickMinBy (key : α → ℚ) (l : List α) : Option α :=
  l.foldl
    (fun acc a =>
      match acc with
      | none => some a
      | some b => if key a < key b then some a else some b)
    none

/-- Python's `max(values, default=d)`. -/
def listMaxD (l : List ℚ) (d : ℚ) : ℚ :=
  match l with
  | [] => d
  | x :: xs => xs.foldl max x

/-- Replace the first element satisfying `p` by `f` of it (models an ORM
in-place mutation of the single row returned by `.first()`). -/
def updateFirst (p : α → Bool) (f : α → α) : List α → List α
  | [] => []
  | x :: xs => if p x then f x :: xs else x :: updateFirst p f xs

/-! ## Data model (`models.py`) -/

/-- A `Telemetry` row (all analytic-relevant columns are `NOT NULL`). -/
structure Telemetry where
  device_id : String
  ts : ℚ
  slot : ℤ
  v_panel : ℚ
  i_panel : ℚ
  p_w : ℚ
  e_wh_today : ℚ
  angle_deg : ℚ
  move_count_today : ℤ
  v_sys_5v : ℚ
  acs_offset_v : ℚ
  deriving Repr, DecidableEq

/-- An `Event` row. -/
structure Event where
  device_id : String
  ts : ℚ
  event_type : String
  deriving Repr, DecidableEq

/-- A `MovementLog` row (`move_duration_sec` and `energy_cost_wh` are
nullable). -/
structure MovementLog where
  device_id : String
  ts : ℚ
  move_duration_sec : Option ℚ
  energy_cost_wh : Option ℚ
  deriving Repr, DecidableEq

/-- A `SlotStatistic` row. -/
structure SlotStat where
  device_id : String
  slot : ℤ
  angle_deg : ℚ
  sample_count : ℕ
  avg_power : ℚ
  std_power : ℚ
  last_updated : ℚ
  deriving Repr, DecidableEq

/-- A `DailySummary` row (only the fields the forecast reads). -/
structure DailySummaryRow where
  device_id : String
  date : ℤ
  energy_wh : ℚ
  deriving Repr, DecidableEq

/-- A `DeviceSettings` row; the numeric policy columns are nullable. -/
structure SettingsRow where
  min_net_gain_wh : Option ℚ
  max_moves_per_hour : Option ℤ
  motor_power_w : Option ℚ
  hold_power_w : Option ℚ
  deriving Repr, DecidableEq

/-- A `DeviceFaultLog` row; `id` is the integer primary key, assigned at
insertion. -/
structure FaultRow where
  id : ℕ
  device_id : String
  ts : ℚ
  fault_type : String
  severity : String
  details_json : String
  correlated_move_id : Option ℕ
  deriving Repr, DecidableEq

/-- An `Alert` row; `id` is the integer primary key. -/
structure AlertRow where
  id : ℕ
  device_id : String
  severity : String
  title : String
  detail : String
  detail_html : String
  created_at : ℚ
  cleared : Bool
  deriving Repr, DecidableEq

/-! ## Fault Recorder (`ai_engine._record_fault`) -/

/-- Does `f` match `_record_fault`'s dedup query for `(device_id, fault_type)`
at time `ts` (same device and type, timestamp within ±30 s)? -/
def faultMatches (device_id : String) (fault_type : String) (ts : ℚ)
    (f : FaultRow) : Bool :=
  f.device_id = device_id ∧ f.fault_type = fault_type ∧
    ts - 30 ≤ f.ts ∧ f.ts ≤ ts + 30

/-- `_record_fault(device_id, ts, fault_type, severity, details,
correlated_move_id)`: return an existing fault of the same (device, type)
within ±30 s of `ts` (most recent first) if any, else insert a new row.
Returns the row together with the new table state. -/
def recordFault (store : List FaultRow) (device_id : String) (ts : ℚ)
    (fault_type severity details : String)
    (correlated_move_id : Option ℕ := none) : FaultRow × List FaultRow :=
  match pickMaxBy (fun f => f.ts)
      (store.filter (faultMatches device_id fault_type ts)) with
  | some existing => (existing, store)
  | none =>
    let log : FaultRow :=
      ⟨store.length, device_id, ts, fault_type, severity, details,
        correlated_move_id⟩
    (log, store ++ [log])

/-! ## Alert Manager (`ai_engine._raise_alert`) -/

/-- Does `a` match `_raise_alert`'s lookup for `(device_id, title)`
(uncleared)? -/
def alertMatches (device_id title : String) (a : AlertRow) : Bool :=
  a.device_id = device_id ∧ a.title = title ∧ a.cleared = false

/-- `_raise_alert(device_id, severity, title, detail)`: if an uncleared alert
with the same (device, title) exists, overwrite its `detail` and
`detail_html` in place; otherwise insert a new alert.  `render` stands for
`utils.markdown_render.render_markdown`; `now` is the inserted row's
`created_at`. -/
def raiseAlert (render : String → String) (store : List AlertRow)
    (device_id severity title detail : String) (now : ℚ) :
    AlertRow × List AlertRow :=
  match pickMaxBy (fun a => a.created_at)
      (store.filter (alertMatches device_id title)) with
  | some existing =>
    let updated := { existing with detail := detail,
                                   detail_html := render detail }
    (updated, updateFirst (fun a => a.id = existing.id)
      (fun a => { a with detail := detail, detail_html := render detail })
      store)
  | none =>
    let alert : AlertRow :=
      ⟨store.length, device_id, severity, title, detail, render detail,
        now, false⟩
    (alert, store ++ [alert])

/-- Count of uncleared alerts for one `(device, title)` pair. -/
def countUncleared (store : List AlertRow) (device_id title : String) : ℕ :=
  (store.filter (alertMatches device_id title)).length

/-- One `_raise_alert` invocation's arguments. -/
structure RaiseCall where
  device_id : String
  severity : String
  title : String
  detail : String
  now : ℚ

/-- A sequence of `_raise_alert` calls applied to an alert table. -/
def runRaises (render : String → String) (store : List AlertRow) :
    List RaiseCall → List AlertRow
  | [] => store
  | c :: cs =>
    runRaises render
      (raiseAlert render store c.device_id c.severity c.title c.detail
        c.now).2 cs

/-! ## Diagnostic signal modules (`ai_engine.py`) -/

/-- SQL `ILIKE` with no wildcards: case-insensitive string equality
(modelled at the character level; the Python code spells it
`Event.event_type.ilike("...")`). -/
def ilikeEq (a b : String) : Bool :=
  a.data.map Char.toLower = b.data.map Char.toLower

/-- Keys in order of first occurrence (models the (deterministic but
otherwise arbitrary) order in which SQL `group_by` rows, and hence the
Python dicts built from them, are iterated). -/
def firstOccs [DecidableEq α] (l : List α) : List α :=
  l.foldl (fun acc k => if k ∈ acc then acc else acc ++ [k]) []

/-- `_slot_power(device_id, start_dt, end_dt)`: per-slot (average power,
sample count) over the half-open time range, as an association list in
group order. -/
def slotPower (device_id : String) (tel : List Telemetry)
    (start_dt end_dt : ℚ) : List (ℤ × ℚ × ℕ) :=
  let rows := tel.filter
    (fun r => r.device_id = device_id ∧ start_dt ≤ r.ts ∧ r.ts < end_dt)
  (firstOccs (rows.map (fun r => r.slot))).map (fun s =>
    let g := rows.filter (fun r => r.slot = s)
    (s, meanQ (g.map (fun r => r.p_w)), g.length))

/-- The per-slot `recent/baseline` power ratios of `_dust_shading` (slots
with non-positive baseline average are skipped; a slot missing from the
recent window contributes ratio 0). -/
def slotRatios (device_id : String) (tel : List Telemetry) (now : ℚ) :
    List ℚ :=
  let baseline := slotPower device_id tel (now - 9 * 86400)
    (now - 2 * 86400)
  let recent := slotPower device_id tel (now - 2 * 86400) now
  baseline.filterMap (fun b =>
    if b.2.1 ≤ 0 then none
    else
      some ((match recent.find? (fun rc => rc.1 = b.1) with
             | some rc => rc.2.1
             | none => 0) / b.2.1))

/-- `_dust_shading(device_id)`, returning
`(dust_probability, shading_probability)` (the extra `mean_ratio` /
`std_ratio` diagnostics of the non-empty branch are not consumed by any
claim and are omitted from the result).  `sqrtF` models the square root
inside `statistics.pstdev`. -/
def dustShading (sqrtF : ℚ → ℚ) (device_id : String) (tel : List Telemetry)
    (now : ℚ) : ℚ × ℚ :=
  let ratios := slotRatios device_id tel now
  if ratios = [] then (0, 0)
  else
    let meanRatio := meanQ ratios
    let stdRatio := if 1 < ratios.length then sqrtF (pvarQ ratios) else 0
    let dust := clampQ ((1 - meanRatio) * (1.2 : ℚ))
      * clampQ (1 - stdRatio / (0.25 : ℚ))
    let shading := clampQ (stdRatio / (0.3 : ℚ)) * clampQ (1 - meanRatio)
    (roundTo 3 dust, roundTo 3 shading)

/-- Result bag of `_sensor_health`. -/
structure SensorHealthResult where
  score : ℚ
  zero_current_ratio : ℚ
  spike_ratio : ℚ
  offset_drift : ℚ
  deriving Repr, DecidableEq

/-- `_sensor_health(device_id)`: trailing-24h sensor integrity score
(default 50 with no telemetry in the window).  `sqrtF` models the square
root inside `statistics.pstdev`. -/
def sensorHealth (sqrtF : ℚ → ℚ) (device_id : String)
    (tel : List Telemetry) (now : ℚ) : SensorHealthResult :=
  let dayRows := tel.filter
    (fun r => r.device_id = device_id ∧ now - 86400 ≤ r.ts)
  let weekOffsets := (tel.filter
    (fun r => r.device_id = device_id ∧ now - 7 * 86400 ≤ r.ts)).map
    (fun r => r.acs_offset_v)
  if dayRows = [] then ⟨50, 0, 0, 0⟩
  else
    let zeroCurrent := (dayRows.filter
      (fun r => (2 : ℚ) < r.v_panel ∧ r.i_panel < (0.05 : ℚ))).length
    let powerValues := dayRows.map (fun r => r.p_w)
    let offsets := dayRows.map (fun r => r.acs_offset_v)
    let sysVoltages := dayRows.map (fun r => r.v_sys_5v)
    let zeroCurrentRatio := (zeroCurrent : ℚ) / ((max dayRows.length 1 : ℕ) : ℚ)
    let avgPower := if powerValues = [] then 0 else meanQ powerValues
    let stdPower :=
      if 1 < powerValues.length then sqrtF (pvarQ powerValues) else 0
    let spikes := (powerValues.filter
      (fun p => avgPower + 3 * stdPower < p ∧ 0 < stdPower)).length
    let spikeRatio := (spikes : ℚ) / ((max powerValues.length 1 : ℕ) : ℚ)
    let weekOffsetsVals := if weekOffsets = [] then offsets else weekOffsets
    let baselineOffset :=
      if weekOffsetsVals = [] then (if offsets = [] then 0 else meanQ offsets)
      else meanQ weekOffsetsVals
    let offsetDrift :=
      |(if offsets = [] then baselineOffset else meanQ offsets)
        - baselineOffset|
    let lowVoltageHits := (sysVoltages.filter
      (fun v => v < (4.7 : ℚ))).length
    let score0 := 100 - zeroCurrentRatio * 40 - spikeRatio * 30
      - min (offsetDrift * 50) 30
      - ((lowVoltageHits : ℚ) / ((max sysVoltages.length 1 : ℕ) : ℚ)) * 20
    let score := clampQ (score0 / 100) 0 1 * 100
    ⟨roundTo 2 score, roundTo 3 zeroCurrentRatio, roundTo 3 spikeRatio,
      roundTo 3 offsetDrift⟩

/-- Result bag of `_movement_cost`. -/
structure MoveCostResult where
  moves : ℕ
  wasted_pct : ℚ
  avg_gain : ℚ
  deriving Repr, DecidableEq

/-- `_movement_cost(device_id)`: trailing-6h move count, wasted-move
percentage and mean net gain; a move lacking a bracketing telemetry sample
within ±10 minutes is skipped in the gain computation but still counted. -/
def movementCost (device_id : String) (tel : List Telemetry)
    (moves : List MovementLog) (now : ℚ) : MoveCostResult :=
  let logs := List.insertionSort (fun a b : MovementLog => a.ts ≤ b.ts)
    (moves.filter (fun m => m.device_id = device_id ∧ now - 6 * 3600 ≤ m.ts))
  if logs = [] then ⟨0, 0, 0⟩
  else
    let gains := logs.filterMap (fun log =>
      match pickMaxBy (fun r => r.ts) (tel.filter
              (fun r => r.device_id = device_id ∧ r.ts ≤ log.ts ∧
                log.ts - 600 ≤ r.ts)),
            pickMinBy (fun r => r.ts) (tel.filter
              (fun r => r.device_id = device_id ∧ log.ts ≤ r.ts ∧
                r.ts ≤ log.ts + 600)) with
      | some before, some after =>
        let intervalHours := max ((after.ts - before.ts) / 3600)
          ((1 : ℚ) / 3600)
        let energyGain := (after.p_w - before.p_w) * intervalHours
        some (energyGain - log.energy_cost_wh.getD 0)
      | _, _ => none)
    let wasted := (gains.filter (fun g => g ≤ 0)).length
    let wastedPct := (wasted : ℚ) / (logs.length : ℚ) * 100
    let avgGain := if gains = [] then 0 else gains.sum / (gains.length : ℚ)
    ⟨logs.length, roundTo 2 wastedPct, roundTo 3 avgGain⟩

/-- Result bag of `_efficiency_score`. -/
structure EfficiencyResult where
  efficiency_score : ℚ
  best_slot_power : ℚ
  wasted_moves_percent : ℚ
  avg_gain_wh : ℚ
  deriving Repr, DecidableEq

/-- `_efficiency_score(device_id, sensor_health_score)`: composite of the
latest sample's power against the best known slot average, the wasted-move
percentage and the sensor health score; 0 when the device has no telemetry
at all. -/
def efficiencyScore (device_id : String) (tel : List Telemetry)
    (stats : List SlotStat) (moves : List MovementLog)
    (sensor_health_score : ℚ) (now : ℚ) : EfficiencyResult :=
  match pickMaxBy (fun r => r.ts)
      (tel.filter (fun r => r.device_id = device_id)) with
  | none => ⟨0, 0, 0, 0⟩
  | some latest =>
    let statsSlot := stats.filter
      (fun s => s.device_id = device_id ∧ s.slot = latest.slot)
    let bestPower := listMaxD (statsSlot.map (fun s => s.avg_power)) 0
    let ratio := if 0 < bestPower then latest.p_w / bestPower else 0
    let moveStats := movementCost device_id tel moves now
    let wastedPct := moveStats.wasted_pct
    let score0 := 100 - (1 - clampQ ratio 0 1) * 40
      - min (wastedPct * (0.5 : ℚ)) 30
      - (100 - sensor_health_score) * (0.3 : ℚ)
    let score := clampQ (score0 / 100) 0 1 * 100
    ⟨roundTo 2 score, roundTo 2 bestPower, wastedPct, moveStats.avg_gain⟩

/-- `_rtc_stability(device_id)`: the RTC reliability score (an integer) and
the fault table after the `rtc_unstable` fault possibly recorded when more
than 3 `rtc_lost` events occurred in the trailing 24h. -/
def rtcStability (device_id : String) (events : List Event)
    (faults : List FaultRow) (now : ℚ) : ℤ × List FaultRow :=
  let rtcEvents := List.insertionSort (fun a b : Event => a.ts ≤ b.ts)
    (events.filter (fun e => e.device_id = device_id ∧ now - 86400 ≤ e.ts ∧
      ilikeEq e.event_type "rtc_lost"))
  let rtcCount : ℤ := rtcEvents.length
  let score : ℤ := max (100 - max 0 ((rtcCount - 3) * 10)) 0
  let faultsOut :=
    if 3 < rtcCount then
      match rtcEvents.getLast? with
      | some ev => (recordFault faults device_id ev.ts "rtc_unstable"
          "warn" (toString rtcCount)).2
      | none => faults
    else faults
  (score, faultsOut)

/-- The trailing-24h `sensor_fault` events of a device, in ascending
timestamp order (`_sensor_fault_patterns`'s query). -/
def sensorFaultEvents (device_id : String) (events : List Event)
    (now : ℚ) : List Event :=
  List.insertionSort (fun a b : Event => a.ts ≤ b.ts)
    (events.filter (fun e => e.device_id = device_id ∧ now - 86400 ≤ e.ts ∧
      ilikeEq e.event_type "sensor_fault"))

/-- `_sensor_fault_patterns`'s `same_hour` count for one event: the
events (the event itself included) whose timestamp lies in the 1-hour
window starting at `ev`. -/
def sameHourCount (evs : List Event) (ev : Event) : ℕ :=
  (evs.filter (fun e => 0 ≤ e.ts - ev.ts ∧ e.ts - ev.ts ≤ 3600)).length

/-- `_sensor_fault_patterns(device_id)`: with fewer than 2 trailing-24h
`sensor_fault` events, nothing; otherwise the first event (ascending)
whose `same_hour` count reaches 2 records one `sensor_wiring_instability`
fault and the loop breaks.  Returns the recorded-faults list and the new
fault table. -/
def sensorFaultPatterns (device_id : String) (events : List Event)
    (faults : List FaultRow) (now : ℚ) : List FaultRow × List FaultRow :=
  let evs := sensorFaultEvents device_id events now
  if evs.length < 2 then ([], faults)
  else
    match evs.find? (fun ev => 2 ≤ sameHourCount evs ev) with
    | some ev =>
      let res := recordFault faults device_id ev.ts
        "sensor_wiring_instability" "warn" (toString (sameHourCount evs ev))
      ([res.1], res.2)
    | none => ([], faults)

/-- The detection rule exactly as the claim words it, for comparison with
the source's `sensorFaultPatterns`: for each event in order, count the
*other* `sensor_fault` events in the trailing 1-hour window *ending* at
that event; the first event where this count reaches 2 triggers. -/
def sensorFaultTriggerClaim (device_id : String) (events : List Event)
    (now : ℚ) : Option Event :=
  let evs := sensorFaultEvents device_id events now
  if evs.length < 2 then none
  else evs.find? (fun ev =>
    2 ≤ (evs.filter (fun e => e ≠ ev ∧ 0 ≤ ev.ts - e.ts ∧
      ev.ts - e.ts ≤ 3600)).length)

/-! ## Windowed Aggregator (`analytics.generate_slot_statistics`) -/

/-- `func.round(Telemetry.angle_deg, 0)`: the angle bucket (rounded to the
nearest whole degree). -/
def roundAngle (q : ℚ) : ℚ :=
  ((round q : ℤ) : ℚ)

/-- One row of the aggregation query's `group_by` result: key columns,
sample count, `avg(p_w)` and `avg(p_w*p_w)`.  The angle bin is an `Option`
because SQL `round` propagates NULL; the code skips such groups. -/
structure AggRow where
  device_id : String
  slot : ℤ
  angle_bin : Option ℚ
  cnt : ℕ
  avg_p : ℚ
  avg_p2 : ℚ
  deriving Repr, DecidableEq

/-- The key columns of an aggregation row. -/
def keyTriple (row : AggRow) : String × ℤ × Option ℚ :=
  (row.device_id, row.slot, row.angle_bin)

/-- The `group_by(device_id, slot, angle_bin)` result over the trailing
`days`-day window, one row per distinct key in first-occurrence order. -/
def aggGroups (days : ℚ) (tel : List Telemetry) (now : ℚ) : List AggRow :=
  let rows := tel.filter (fun r => now - days * 86400 ≤ r.ts)
  (firstOccs (rows.map
    (fun r => (r.device_id, r.slot, roundAngle r.angle_deg)))).map (fun k =>
    let g := rows.filter (fun r =>
      r.device_id = k.1 ∧ r.slot = k.2.1 ∧ roundAngle r.angle_deg = k.2.2)
    ⟨k.1, k.2.1, some k.2.2, g.length, meanQ (g.map (fun r => r.p_w)),
      meanQ (g.map (fun r => r.p_w * r.p_w))⟩)

/-- Does `s` match the `SlotStatistic.query.filter_by(device_id, slot,
angle_deg)` lookup? -/
def statKey (device_id : String) (slot : ℤ) (angle : ℚ)
    (s : SlotStat) : Bool :=
  s.device_id = device_id ∧ s.slot = slot ∧ s.angle_deg = angle

/-- The per-group upsert body of `generate_slot_statistics`: skip groups
with a NULL angle bin; otherwise update the first existing row with the
group's count, mean and `sqrt(avg(p²) − avg(p)²)` clamped at zero (via
`sqrtF`, modelling `math.sqrt`), or insert a fresh row. -/
def upsertStat (sqrtF : ℚ → ℚ) (now : ℚ) (stats : List SlotStat)
    (row : AggRow) : List SlotStat :=
  match row.angle_bin with
  | none => stats
  | some a =>
    let meanPower := row.avg_p
    let variance := max (row.avg_p2 - meanPower * meanPower) 0
    let stdPower := sqrtF variance
    if stats.any (statKey row.device_id row.slot a) then
      updateFirst (statKey row.device_id row.slot a)
        (fun s => { s with sample_count := row.cnt, avg_power := meanPower,
                           std_power := stdPower, last_updated := now })
        stats
    else
      stats ++ [⟨row.device_id, row.slot, a, row.cnt, meanPower, stdPower,
        now⟩]

/-- `generate_slot_statistics(days)`: recompute every group over the
trailing window and upsert one Slot Statistic row per group. -/
def generateSlotStatistics (sqrtF : ℚ → ℚ) (days : ℚ)
    (tel : List Telemetry) (stats : List SlotStat) (now : ℚ) :
    List SlotStat :=
  (aggGroups days tel now).foldl (upsertStat sqrtF now) stats

/-- All stored columns of a Slot Statistic except `last_updated`. -/
def statData (s : SlotStat) : String × ℤ × ℚ × ℕ × ℚ × ℚ :=
  (s.device_id, s.slot, s.angle_deg, s.sample_count, s.avg_power,
    s.std_power)

/-! ## Forecast module (`ai_engine._forecast_next_hour`) -/

/-- The trailing-2h telemetry of a device in ascending timestamp order
(`_forecast_next_hour`'s query). -/
def forecastRows (device_id : String) (tel : List Telemetry) (now : ℚ) :
    List Telemetry :=
  List.insertionSort (fun a b : Telemetry => a.ts ≤ b.ts)
    (tel.filter (fun r => r.device_id = device_id ∧ now - 7200 ≤ r.ts))

/-- The last 4 stored daily summaries of a device, newest first
(`DailySummary.query...order_by(date.desc()).limit(4)`). -/
def latest4Summaries (device_id : String)
    (summaries : List DailySummaryRow) : List DailySummaryRow :=
  (List.insertionSort (fun a b : DailySummaryRow => b.date ≤ a.date)
    (summaries.filter (fun s => s.device_id = device_id))).take 4

/-- Result bag of `_forecast_next_hour`. -/
structure ForecastResult where
  predicted_wh : ℚ
  confidence : ℚ
  deriving Repr, DecidableEq

/-- `_forecast_next_hour(device_id)`: short-horizon energy prediction from
the trailing 2h of telemetry, capped by the mean of the last 4 daily
summaries only when that mean is truthy (non-zero). -/
def forecastNextHour (device_id : String) (tel : List Telemetry)
    (summaries : List DailySummaryRow) (now : ℚ) : ForecastResult :=
  let hourRows := forecastRows device_id tel now
  if hourRows = [] then ⟨0, 0⟩
  else
    let recentWh := hourRows.map (fun r => r.e_wh_today)
    let powerVals := (hourRows.filter
      (fun r => now - 3600 ≤ r.ts)).map (fun r => r.p_w)
    let avgPower := if powerVals = [] then 0 else meanQ powerVals
    let trend := if 2 ≤ recentWh.length
      then recentWh.getLastD 0 - recentWh.headD 0 else 0
    let predicted := max (avgPower * 1 + trend * (0.1 : ℚ)) 0
    let confidence := clampQ ((powerVals.length : ℚ) / 60) 0 1 * 100
    let latestSummaries := latest4Summaries device_id summaries
    let predicted2 :=
      if latestSummaries ≠ [] then
        (if meanQ (latestSummaries.map (fun s => s.energy_wh)) ≠ 0 then
          clampQ predicted 0
            (meanQ (latestSummaries.map (fun s => s.energy_wh)))
         else predicted)
      else predicted
    ⟨roundTo 2 predicted2, roundTo 1 confidence⟩

/-- The forecast formula exactly as the (amended) claim words it:
`round₂` of `max(avg_1h_power×1 + (latest − earliest e_wh)×0.1, 0)`,
clamped into `[0, mean]` of the last 4 daily summaries' energies whenever
summaries exist *and that mean is non-zero*; confidence
`round₁(clamp(n/60)×100)`. -/
def forecastSpec (device_id : String) (tel : List Telemetry)
    (summaries : List DailySummaryRow) (now : ℚ) : ForecastResult :=
  let hourRows := forecastRows device_id tel now
  let whVals := hourRows.map (fun r => r.e_wh_today)
  let powerVals := (hourRows.filter
    (fun r => now - 3600 ≤ r.ts)).map (fun r => r.p_w)
  let trend := whVals.getLastD 0 - whVals.headD 0
  let base := max (meanQ powerVals * 1 + trend * (0.1 : ℚ)) 0
  let latestSummaries := latest4Summaries device_id summaries
  let avgDaily := meanQ (latestSummaries.map (fun s => s.energy_wh))
  let capped := if latestSummaries ≠ [] ∧ avgDaily ≠ 0
    then clampQ base 0 avgDaily else base
  ⟨roundTo 2 capped,
   roundTo 1 (clampQ ((powerVals.length : ℚ) / 60) 0 1 * 100)⟩

/-! ## Net-Gain Projector (`analytics.net_gain_projection`) -/

/-- The defaults `ensure_settings` installs when a device has no settings
row (`mode` is not read by the projector and is omitted). -/
def defaultSettings : SettingsRow :=
  ⟨some 0, some 12, some 50, some 2⟩

/-- `ensure_settings(device_id)`: the stored row if present, else the
freshly created defaults. -/
def ensureSettings (settings : Option SettingsRow) : SettingsRow :=
  settings.getD defaultSettings

/-- The device's latest telemetry sample
(`order_by(Telemetry.ts.desc()).first()`). -/
def latestTelemetry (device_id : String) (tel : List Telemetry) :
    Option Telemetry :=
  pickMaxBy (fun r => r.ts) (tel.filter (fun r => r.device_id = device_id))

/-- `_current_angle_power(stat_rows, angle)`: the average power of the
first statistic whose angle bucket is within 0.5° of `angle`. -/
def currentAnglePower (stat_rows : List SlotStat) (angle : ℚ) : Option ℚ :=
  (stat_rows.find? (fun row => |row.angle_deg - angle| ≤ (0.5 : ℚ))).map
    (fun row => row.avg_power)

/-- `_estimate_move_duration(device_id)`: mean of the truthy durations of
the last 10 movement logs (0 when none). -/
def estimateMoveDuration (device_id : String) (moves : List MovementLog) :
    ℚ :=
  let lastLogs := (List.insertionSort (fun a b : MovementLog => b.ts ≤ a.ts)
    (moves.filter (fun m => m.device_id = device_id))).take 10
  let durations := lastLogs.filterMap (fun log =>
    match log.move_duration_sec with
    | some v => if v = 0 then none else some v
    | none => none)
  if durations = [] then 0 else durations.sum / (durations.length : ℚ)

/-- `_moves_last_hour(device_id)`. -/
def movesLastHour (device_id : String) (moves : List MovementLog)
    (now : ℚ) : ℕ :=
  (moves.filter
    (fun m => m.device_id = device_id ∧ now - 3600 ≤ m.ts)).length

/-- The slot statistics of the latest sample's slot
(`SlotStatistic.query.filter_by(device_id=..., slot=latest.slot)`). -/
def statsForSlot (device_id : String) (stats : List SlotStat) (slot : ℤ) :
    List SlotStat :=
  stats.filter (fun s => s.device_id = device_id ∧ s.slot = slot)

/-- The projector's `current_power` local: the matching angle-bucket
statistic's average when slot statistics exist, else the raw instantaneous
power. -/
def currentPowerOf (device_id : String) (stats : List SlotStat)
    (latest : Telemetry) : ℚ :=
  (if statsForSlot device_id stats latest.slot = [] then none
   else currentAnglePower (statsForSlot device_id stats latest.slot)
     latest.angle_deg).getD latest.p_w

/-- The projector's `expected_gain_wh` local. -/
def expectedGainOf (device_id : String) (stats : List SlotStat)
    (latest : Telemetry) : ℚ :=
  match pickMaxBy (fun s => s.avg_power)
      (statsForSlot device_id stats latest.slot) with
  | some best => best.avg_power - currentPowerOf device_id stats latest
  | none => 0

/-- The projector's `recommended_angle` local. -/
def recommendedAngleOf (device_id : String) (stats : List SlotStat)
    (latest : Telemetry) : ℚ :=
  match pickMaxBy (fun s => s.avg_power)
      (statsForSlot device_id stats latest.slot) with
  | some best => best.angle_deg
  | none => latest.angle_deg

/-- The projector's `motor_cost_wh` local. -/
def motorCostOf (device_id : String) (moves : List MovementLog)
    (settings : SettingsRow) : ℚ :=
  let avgDuration := estimateMoveDuration device_id moves
  if avgDuration ≠ 0 then settings.motor_power_w.getD 0 * avgDuration / 3600
  else 0

/-- The projector's `net_gain_wh` local. -/
def netGainOf (device_id : String) (stats : List SlotStat)
    (moves : List MovementLog) (settings : SettingsRow)
    (latest : Telemetry) : ℚ :=
  expectedGainOf device_id stats latest - motorCostOf device_id moves settings

/-- The projector's result record. -/
structure NetGainResult where
  slot : ℤ
  current_angle : ℚ
  recommended_angle : ℚ
  expected_gain_wh : ℚ
  motor_cost_wh : ℚ
  net_gain_wh : ℚ
  decision : String
  deriving Repr, DecidableEq

/-- `net_gain_projection(device_id)`: `None` without telemetry, else the
assembled projection with its MOVE/HOLD decision (`can_move` treats a
`max_moves_per_hour` of 0 — and a NULL one, read back as 0 — as "no
cap"). -/
def netGainProjection (device_id : String) (tel : List Telemetry)
    (stats : List SlotStat) (moves : List MovementLog)
    (settings? : Option SettingsRow) (now : ℚ) : Option NetGainResult :=
  match latestTelemetry device_id tel with
  | none => none
  | some latest =>
    let settings := ensureSettings settings?
    let maxMoves := settings.max_moves_per_hour.getD 0
    let canMove := maxMoves = 0 ∨
      ((movesLastHour device_id moves now : ℤ) < maxMoves)
    let decision :=
      if netGainOf device_id stats moves settings latest ≥
            settings.min_net_gain_wh.getD 0 ∧ canMove ∧
          recommendedAngleOf device_id stats latest ≠ latest.angle_deg
      then "MOVE" else "HOLD"
    some ⟨latest.slot, latest.angle_deg,
      recommendedAngleOf device_id stats latest,
      roundTo 3 (expectedGainOf device_id stats latest),
      roundTo 3 (motorCostOf device_id moves settings),
      roundTo 3 (netGainOf device_id stats moves settings latest),
      decision⟩

/-! ## Diagnostics Cycle Orchestrator (`ai_engine.run_ai_jobs`) -/

/-- An `AISummary` row (only the fields the transactional claim needs). -/
structure AISummaryRow where
  device_id : String
  summary_json : String
  deriving Repr, DecidableEq

/-- The tables one device cycle writes: fault logs, alerts, summaries. -/
structure OrchDB where
  faults : List FaultRow
  alerts : List AlertRow
  summaries : List AISummaryRow
  deriving Repr, DecidableEq

/-- A device's slice of the persisted state. -/
def rowsFor (device_id : String) (db : OrchDB) :
    List FaultRow × List AlertRow × List AISummaryRow :=
  (db.faults.filter (fun f => f.device_id = device_id),
   db.alerts.filter (fun a => a.device_id = device_id),
   db.summaries.filter (fun s => s.device_id = device_id))

/-- `run_ai_jobs()`: iterate the active devices; run the per-device
pipeline inside `try`; on success `db.session.commit()` makes the staged
writes durable, on any exception `db.session.rollback()` discards them and
the loop proceeds with the next device.  The pipeline body (diagnostics,
alert raising, summary assembly — none of which commits) is abstracted as
`pipeline`, returning the session state including the device's staged
writes, or `none` when any step raises. -/
def runAiJobs (pipeline : String → OrchDB → Option OrchDB)
    (devices : List String) (db : OrchDB) : OrchDB :=
  devices.foldl (fun s d =>
    match pipeline d s with
    | some s2 => s2
    | none => s) db

/-! ## Generic lemmas about the query-modelling helpers -/

theorem pickMaxBy_some_aux (key : α → ℚ) :
    ∀ (l : List α) (b a : α),
      l.foldl
        (fun acc a =>
          match acc with
          | none => some a
          | some b => if key b < key a then some a else some b)
        (some b) = some a → a = b ∨ a ∈ l := by
  intro l
  induction l with
  | nil => intro b a h; exact Or.inl (Option.some_injective _ h).symm
  | cons c l ih =>
    intro b a h
    simp only [List.foldl_cons] at h
    by_cases hc : key b < key c
    · rw [if_pos hc] at h
      rcases ih c a h with h1 | h1
      · exact Or.inr (by simp [h1])
      · exact Or.inr (by simp [h1])
    · rw [if_neg hc] at h
      rcases ih b a h with h1 | h1
      · exact Or.inl h1
      · exact Or.inr (by simp [h1])

theorem pickMaxBy_mem (key : α → ℚ) (l : List α) (a : α)
    (h : pickMaxBy key l = some a) : a ∈ l := by
  cases l with
  | nil => exact absurd h (by simp [pickMaxBy])
  | cons c l =>
    have h' : l.foldl
        (fun acc a =>
          match acc with
          | none => some a
          | some b => if key b < key a then some a else some b)
        (some c) = some a := h
    rcases pickMaxBy_some_aux key l c a h' with h1 | h1
    · simp [h1]
    · simp [h1]

theorem pickMaxBy_isSome_aux (key : α → ℚ) :
    ∀ (l : List α) (b : α),
      (l.foldl
        (fun acc a =>
          match acc with
          | none => some a
          | some b => if key b < key a then some a else some b)
        (some b)).isSome := by
  intro l
  induction l with
  | nil => intro b; rfl
  | cons c l ih =>
    intro b
    simp only [List.foldl_cons]
    by_cases hc : key b < key c
    · rw [if_pos hc]; exact ih c
    · rw [if_neg hc]; exact ih b

theorem pickMaxBy_eq_none_iff (key : α → ℚ) (l : List α) :
    pickMaxBy key l = none ↔ l = [] := by
  constructor
  · intro h
    cases l with
    | nil => rfl
    | cons c l =>
      have h2 := pickMaxBy_isSome_aux key l c
      have h3 : pickMaxBy key (c :: l) = l.foldl
          (fun acc a =>
            match acc with
            | none => some a
            | some b => if key b < key a then some a else some b)
          (some c) := rfl
      rw [← h3, h] at h2
      exact absurd h2 (by simp)
  · intro h; subst h; rfl

theorem updateFirst_length (p : α → Bool) (f : α → α) :
    ∀ l : List α, (updateFirst p f l).length = l.length := by
  intro l
  induction l with
  | nil => rfl
  | cons x xs ih =>
    by_cases hx : p x
    · simp [updateFirst, hx]
    · simp [updateFirst, hx, ih]

theorem updateFirst_filter_length (p : α → Bool) (f : α → α) (q : α → Bool)
    (hf : ∀ a, q (f a) = q a) :
    ∀ l : List α,
      ((updateFirst p f l).filter q).length = (l.filter q).length := by
  intro l
  induction l with
  | nil => rfl
  | cons x xs ih =>
    simp only [updateFirst]
    by_cases hx : p x
    · rw [if_pos hx]
      by_cases hq : q x
      · rw [List.filter_cons_of_pos (by rw [hf]; exact hq),
          List.filter_cons_of_pos hq]
        simp
      · rw [List.filter_cons_of_neg (by rw [hf]; exact hq),
          List.filter_cons_of_neg hq]
    · rw [if_neg hx]
      by_cases hq : q x
      · rw [List.filter_cons_of_pos hq, List.filter_cons_of_pos hq]
        simp [ih]
      · rw [List.filter_cons_of_neg hq, List.filter_cons_of_neg hq]
        exact ih

theorem updateFirst_map (p : α → Bool) (f : α → α) (g : α → β)
    (hf : ∀ a, g (f a) = g a) :
    ∀ l : List α, (updateFirst p f l).map g = l.map g := by
  intro l
  induction l with
  | nil => rfl
  | cons x xs ih =>
    by_cases hx : p x
    · simp [updateFirst, hx, hf]
    · simp [updateFirst, hx, ih]

/-! ## Claim C2: Fault Recorder idempotence -/

/-- C2: for every fault table holding no fault of the same (device, type)
within ±30 s of either timestamp, and any two timestamps within 30 s of
each other, the first `_record_fault` call inserts exactly one row and the
second call returns that same row and leaves the table unchanged. -/
theorem record_fault_idempotent (store : List FaultRow) (d ft : String)
    (ts1 ts2 : ℚ) (sev1 sev2 det1 det2 : String) (cm1 cm2 : Option ℕ)
    (h30 : |ts2 - ts1| ≤ 30)
    (hclean : ∀ f ∈ store, f.device_id = d → f.fault_type = ft →
      30 < |f.ts - ts1| ∧ 30 < |f.ts - ts2|) :
    (recordFault (recordFault store d ts1 ft sev1 det1 cm1).2
        d ts2 ft sev2 det2 cm2).1
      = (recordFault store d ts1 ft sev1 det1 cm1).1 ∧
    (recordFault (recordFault store d ts1 ft sev1 det1 cm1).2
        d ts2 ft sev2 det2 cm2).2
      = (recordFault store d ts1 ft sev1 det1 cm1).2 ∧
    (recordFault store d ts1 ft sev1 det1 cm1).2.length
      = store.length + 1 ∧
    (recordFault store d ts1 ft sev1 det1 cm1).1.ts = ts1 := by
  have hfil1 : store.filter (faultMatches d ft ts1) = [] := by
    rw [List.filter_eq_nil_iff]
    intro f hf
    simp only [faultMatches, decide_eq_true_eq]
    rintro ⟨hd, hft, hlo, hhi⟩
    rcases hclean f hf hd hft with ⟨h1, _⟩
    have : |f.ts - ts1| ≤ 30 := by
      rw [abs_le]
      constructor <;> linarith
    linarith
  have hr1 : recordFault store d ts1 ft sev1 det1 cm1
      = (⟨store.length, d, ts1, ft, sev1, det1, cm1⟩,
         store ++ [⟨store.length, d, ts1, ft, sev1, det1, cm1⟩]) := by
    unfold recordFault
    rw [hfil1]
    rfl
  set log : FaultRow := ⟨store.length, d, ts1, ft, sev1, det1, cm1⟩ with hlog
  have hfil2 : (store ++ [log]).filter (faultMatches d ft ts2) = [log] := by
    rw [List.filter_append]
    have h1 : store.filter (faultMatches d ft ts2) = [] := by
      rw [List.filter_eq_nil_iff]
      intro f hf
      simp only [faultMatches, decide_eq_true_eq]
      rintro ⟨hd, hft, hlo, hhi⟩
      rcases hclean f hf hd hft with ⟨_, h2⟩
      have : |f.ts - ts2| ≤ 30 := by
        rw [abs_le]
        constructor <;> linarith
      linarith
    have h2 : List.filter (faultMatches d ft ts2) [log] = [log] := by
      have habs := abs_le.mp h30
      have hmatch : faultMatches d ft ts2 log = true := by
        simp only [faultMatches, hlog, decide_eq_true_eq]
        exact ⟨trivial, trivial, by linarith [habs.1, habs.2],
          by linarith [habs.1, habs.2]⟩
      rw [List.filter_cons_of_pos hmatch]
      rfl
    rw [h1, h2]
    rfl
  have hr2 : recordFault (store ++ [log]) d ts2 ft sev2 det2 cm2
      = (log, store ++ [log]) := by
    unfold recordFault
    rw [hfil2]
    rfl
  refine ⟨?_, ?_, ?_, ?_⟩
  · rw [hr1]; exact congrArg Prod.fst hr2
  · rw [hr1]; exact congrArg Prod.snd hr2
  · rw [hr1]; simp
  · rw [hr1]

/-- Witness for C2 at a concrete input: empty table, timestamps 0 and 10. -/
theorem record_fault_idempotent_witness :
    (recordFault (recordFault [] "dev" 0 "rtc_unstable" "warn" "x" none).2
        "dev" 10 "rtc_unstable" "warn" "y" none).1
      = (recordFault [] "dev" 0 "rtc_unstable" "warn" "x" none).1 ∧
    (recordFault (recordFault [] "dev" 0 "rtc_unstable" "warn" "x" none).2
        "dev" 10 "rtc_unstable" "warn" "y" none).2
      = (recordFault [] "dev" 0 "rtc_unstable" "warn" "x" none).2 ∧
    (recordFault [] "dev" 0 "rtc_unstable" "warn" "x" none).2.length
      = ([] : List FaultRow).length + 1 ∧
    (recordFault [] "dev" 0 "rtc_unstable" "warn" "x" none).1.ts = 0 :=
  record_fault_idempotent [] "dev" "rtc_unstable" 0 10 "warn" "warn"
    "x" "y" none none (by norm_num)
    (by intro f hf; exact absurd hf (List.not_mem_nil f))

/-! ## Claim C3: Alert Manager dedup invariant -/

/-- The alert-table well-formedness the ORM guarantees and `_raise_alert`
preserves: at most one uncleared alert per (device, title), primary keys
below the row count, and distinct primary keys. -/
def AlertInv (store : List AlertRow) : Prop :=
  (∀ d t, countUncleared store d t ≤ 1) ∧
  (∀ a ∈ store, a.id < store.length) ∧
  (store.map (fun a => a.id)).Nodup

theorem countUncleared_append (store : List AlertRow) (b : AlertRow)
    (d t : String) :
    countUncleared (store ++ [b]) d t
      = countUncleared store d t + (if alertMatches d t b then 1 else 0) := by
  unfold countUncleared
  rw [List.filter_append, List.length_append]
  congr 1
  by_cases hb : alertMatches d t b
  · rw [List.filter_cons_of_pos hb, if_pos hb]
    rfl
  · rw [List.filter_cons_of_neg hb, if_neg hb]
    rfl

theorem raiseAlert_preserves_inv (render : String → String)
    (store : List AlertRow) (d sev t det : String) (now : ℚ)
    (h : AlertInv store) :
    AlertInv (raiseAlert render store d sev t det now).2 := by
  obtain ⟨hcount, hbound, hnodup⟩ := h
  cases hpick : pickMaxBy (fun a => a.created_at)
      (store.filter (alertMatches d t)) with
  | none =>
    have hres : (raiseAlert render store d sev t det now).2
        = store ++ [⟨store.length, d, sev, t, det, render det, now, false⟩] := by
      unfold raiseAlert
      rw [hpick]
    have hfil : store.filter (alertMatches d t) = [] :=
      (pickMaxBy_eq_none_iff _ _).mp hpick
    rw [hres]
    refine ⟨?_, ?_, ?_⟩
    · intro d' t'
      rw [countUncleared_append]
      by_cases hm : alertMatches d' t'
          (⟨store.length, d, sev, t, det, render det, now, false⟩ : AlertRow)
      · have hd' : d' = d ∧ t' = t := by
          simp only [alertMatches, decide_eq_true_eq] at hm
          exact ⟨hm.1.symm, hm.2.1.symm⟩
        have h0 : countUncleared store d' t' = 0 := by
          rw [hd'.1, hd'.2]
          unfold countUncleared
          rw [hfil]
          rfl
        rw [h0, if_pos hm]
      · rw [if_neg hm]
        simpa using hcount d' t'
    · intro a ha
      rw [List.length_append]
      rcases List.mem_append.mp ha with h1 | h1
      · exact lt_of_lt_of_le (hbound a h1) (by simp)
      · have ha2 : a = ⟨store.length, d, sev, t, det, render det, now,
            false⟩ := by simpa using h1
        rw [ha2]
        simp
    · rw [List.map_append, List.nodup_append]
      refine ⟨hnodup, by simp, ?_⟩
      intro x hx
      simp only [List.mem_map] at hx
      obtain ⟨a, ha, hax⟩ := hx
      have hlt := hbound a ha
      simp only [List.map_cons, List.map_nil, List.mem_singleton]
      rw [← hax]
      exact ne_of_lt hlt
  | some ex =>
    have hres : (raiseAlert render store d sev t det now).2
        = updateFirst (fun a => a.id = ex.id)
            (fun a => { a with detail := det, detail_html := render det })
            store := by
      unfold raiseAlert
      rw [hpick]
    rw [hres]
    refine ⟨?_, ?_, ?_⟩
    · intro d' t'
      unfold countUncleared
      rw [updateFirst_filter_length _ _ _ (fun a => by simp [alertMatches])]
      exact hcount d' t'
    · intro a ha
      rw [updateFirst_length]
      have hmap := updateFirst_map (fun a => a.id = ex.id)
        (fun a => { a with detail := det, detail_html := render det })
        (fun a => a.id) (fun a => rfl) store
      have hida : a.id ∈ store.map (fun a => a.id) := by
        rw [← hmap]
        exact List.mem_map_of_mem _ ha
      obtain ⟨b, hb, hba⟩ := List.mem_map.mp hida
      rw [← hba]
      exact hbound b hb
    · have hmap := updateFirst_map (fun a : AlertRow => (a.id = ex.id : Bool))
        (fun a : AlertRow => { a with detail := det,
                                      detail_html := render det })
        (fun a : AlertRow => a.id) (fun a => rfl) store
      rw [hmap]
      exact hnodup

theorem runRaises_inv (render : String → String) :
    ∀ (calls : List RaiseCall) (store : List AlertRow),
      AlertInv store → AlertInv (runRaises render store calls) := by
  intro calls
  induction calls with
  | nil => intro store h; exact h
  | cons c cs ih =>
    intro store h
    exact ih _ (raiseAlert_preserves_inv render store c.device_id c.severity
      c.title c.detail c.now h)

/-- C3: after any sequence of `_raise_alert` calls starting from an empty
alert table there is at most one uncleared alert per (device, title); and
when an uncleared alert with the same (device, title) exists, `_raise_alert`
overwrites its detail (and rendered detail) in place without inserting a
row. -/
theorem raise_alert_dedup_invariant (render : String → String) :
    (∀ calls : List RaiseCall, ∀ d t,
      countUncleared (runRaises render [] calls) d t ≤ 1) ∧
    (∀ (store : List AlertRow) (d sev t det : String) (now : ℚ),
      store.filter (alertMatches d t) ≠ [] →
      (raiseAlert render store d sev t det now).2.length = store.length ∧
      (raiseAlert render store d sev t det now).1.detail = det ∧
      (raiseAlert render store d sev t det now).1.detail_html = render det ∧
      (raiseAlert render store d sev t det now).1.device_id = d ∧
      (raiseAlert render store d sev t det now).1.title = t ∧
      (raiseAlert render store d sev t det now).1.cleared = false) := by
  constructor
  · intro calls d t
    have hinv : AlertInv ([] : List AlertRow) := by
      refine ⟨?_, ?_, ?_⟩
      · intro d' t'
        simp [countUncleared]
      · intro a ha
        exact absurd ha (List.not_mem_nil a)
      · simp
    exact (runRaises_inv render calls [] hinv).1 d t
  · intro store d sev t det now hne
    cases hpick : pickMaxBy (fun a => a.created_at)
        (store.filter (alertMatches d t)) with
    | none => exact absurd ((pickMaxBy_eq_none_iff _ _).mp hpick) hne
    | some ex =>
      have hmem := pickMaxBy_mem _ _ _ hpick
      have hmatch : alertMatches d t ex = true := List.of_mem_filter hmem
      simp only [alertMatches, decide_eq_true_eq] at hmatch
      have hres2 : (raiseAlert render store d sev t det now).2
          = updateFirst (fun a => a.id = ex.id)
              (fun a => { a with detail := det, detail_html := render det })
              store := by
        unfold raiseAlert
        rw [hpick]
      have hres1 : (raiseAlert render store d sev t det now).1
          = { ex with detail := det, detail_html := render det } := by
        unfold raiseAlert
        rw [hpick]
      rw [hres1, hres2]
      exact ⟨updateFirst_length _ _ store, rfl, rfl, hmatch.1, hmatch.2.1,
        hmatch.2.2⟩

/-- Witness for C3 at concrete inputs: two raises of the same (device,
title) from the empty table, and one raise against a table that already
holds a matching uncleared alert. -/
theorem raise_alert_dedup_invariant_witness :
    countUncleared
      (runRaises id []
        [⟨"dev", "warn", "T", "d1", 0⟩, ⟨"dev", "crit", "T", "d2", 1⟩])
      "dev" "T" ≤ 1 ∧
    (raiseAlert id [⟨0, "dev", "warn", "T", "x", "x", 0, false⟩]
        "dev" "crit" "T" "d2" 5).2.length = 1 ∧
    (raiseAlert id [⟨0, "dev", "warn", "T", "x", "x", 0, false⟩]
        "dev" "crit" "T" "d2" 5).1.detail = "d2" :=
  ⟨(raise_alert_dedup_invariant id).1
      [⟨"dev", "warn", "T", "d1", 0⟩, ⟨"dev", "crit", "T", "d2", 1⟩]
      "dev" "T",
   ((raise_alert_dedup_invariant id).2
      [⟨0, "dev", "warn", "T", "x", "x", 0, false⟩]
      "dev" "crit" "T" "d2" 5 (by decide)).1,
   (((raise_alert_dedup_invariant id).2
      [⟨0, "dev", "warn", "T", "x", "x", 0, false⟩]
      "dev" "crit" "T" "d2" 5 (by decide)).2).1⟩

/-! ## Rounding and clamping lemmas -/

theorem roundTo_mono (n : ℕ) {a b : ℚ} (h : a ≤ b) :
    roundTo n a ≤ roundTo n b := by
  unfold roundTo
  have h10 : (0 : ℚ) < (10 : ℚ) ^ n := by positivity
  have h1 : a * (10 : ℚ) ^ n ≤ b * (10 : ℚ) ^ n :=
    mul_le_mul_of_nonneg_right h (le_of_lt h10)
  have h2 : round (a * (10 : ℚ) ^ n) ≤ round (b * (10 : ℚ) ^ n) := by
    rw [round_eq, round_eq]
    exact Int.floor_le_floor (by linarith)
  have h3 : ((round (a * (10 : ℚ) ^ n) : ℤ) : ℚ)
      ≤ ((round (b * (10 : ℚ) ^ n) : ℤ) : ℚ) := by exact_mod_cast h2
  exact (div_le_div_iff_of_pos_right h10).mpr h3

theorem roundTo_zero (n : ℕ) : roundTo n 0 = 0 := by
  unfold roundTo
  simp

theorem roundTo_hundred (n : ℕ) : roundTo n 100 = 100 := by
  unfold roundTo
  have h : (100 : ℚ) * (10 : ℚ) ^ n = ((100 * 10 ^ n : ℤ) : ℚ) := by
    push_cast
    ring
  rw [h, round_intCast]
  have h10 : ((10 : ℚ) ^ n) ≠ 0 := by positivity
  push_cast
  field_simp

/-- The final clamp-and-rescale step shared by all score formulas keeps the
result in `[0, 100]`, rounding included. -/
theorem score_range (n : ℕ) (x : ℚ) :
    0 ≤ roundTo n (clampQ x 0 1 * 100) ∧
      roundTo n (clampQ x 0 1 * 100) ≤ 100 := by
  have h1 : 0 ≤ clampQ x 0 1 := le_max_left _ _
  have h2 : clampQ x 0 1 ≤ 1 := max_le (by norm_num) (min_le_left _ _)
  constructor
  · calc (0 : ℚ) = roundTo n 0 := (roundTo_zero n).symm
      _ ≤ roundTo n (clampQ x 0 1 * 100) :=
        roundTo_mono n (mul_nonneg h1 (by norm_num))
  · calc roundTo n (clampQ x 0 1 * 100) ≤ roundTo n 100 :=
        roundTo_mono n (by nlinarith)
      _ = 100 := roundTo_hundred n

theorem rtcStability_fst (d : String) (events : List Event)
    (faults : List FaultRow) (now : ℚ) :
    (rtcStability d events faults now).1
      = max (100 - max 0 ((((List.insertionSort
          (fun a b : Event => a.ts ≤ b.ts)
          (events.filter (fun e => e.device_id = d ∧ now - 86400 ≤ e.ts ∧
            ilikeEq e.event_type "rtc_lost"))).length : ℤ) - 3) * 10)) 0 :=
  rfl

/-! ## Claim C1: score ranges and defaults -/

/-- C1: sensor health, RTC reliability and efficiency scores always lie in
[0, 100]; with no telemetry in the trailing 24h the sensor health score is
exactly 50, and with no telemetry at all the efficiency score is 0. -/
theorem scores_in_range_and_defaults :
    (∀ (sqrtF : ℚ → ℚ) (d : String) (tel : List Telemetry) (now : ℚ),
      0 ≤ (sensorHealth sqrtF d tel now).score ∧
        (sensorHealth sqrtF d tel now).score ≤ 100) ∧
    (∀ (d : String) (events : List Event) (faults : List FaultRow)
        (now : ℚ),
      0 ≤ (rtcStability d events faults now).1 ∧
        (rtcStability d events faults now).1 ≤ 100) ∧
    (∀ (d : String) (tel : List Telemetry) (stats : List SlotStat)
        (moves : List MovementLog) (shs now : ℚ),
      0 ≤ (efficiencyScore d tel stats moves shs now).efficiency_score ∧
        (efficiencyScore d tel stats moves shs now).efficiency_score
          ≤ 100) ∧
    (∀ (sqrtF : ℚ → ℚ) (d : String) (tel : List Telemetry) (now : ℚ),
      tel.filter (fun r => r.device_id = d ∧ now - 86400 ≤ r.ts) = [] →
      (sensorHealth sqrtF d tel now).score = 50) ∧
    (∀ (d : String) (tel : List Telemetry) (stats : List SlotStat)
        (moves : List MovementLog) (shs now : ℚ),
      tel.filter (fun r => r.device_id = d) = [] →
      (efficiencyScore d tel stats moves shs now).efficiency_score = 0) := by
  refine ⟨?_, ?_, ?_, ?_, ?_⟩
  · intro sqrtF d tel now
    simp only [sensorHealth]
    split
    · exact ⟨by norm_num, by norm_num⟩
    · exact score_range 2 _
  · intro d events faults now
    rw [rtcStability_fst]
    constructor
    · exact le_max_right _ _
    · refine max_le ?_ (by norm_num)
      have h1 : (0 : ℤ) ≤ max 0 ((((List.insertionSort
          (fun a b : Event => a.ts ≤ b.ts)
          (events.filter (fun e => e.device_id = d ∧ now - 86400 ≤ e.ts ∧
            ilikeEq e.event_type "rtc_lost"))).length : ℤ) - 3) * 10) :=
        le_max_left _ _
      omega
  · intro d tel stats moves shs now
    simp only [efficiencyScore]
    split
    · exact ⟨by norm_num, by norm_num⟩
    · exact score_range 2 _
  · intro sqrtF d tel now h
    have hres : sensorHealth sqrtF d tel now = ⟨50, 0, 0, 0⟩ := by
      unfold sensorHealth
      rw [h]
      rfl
    rw [hres]
  · intro d tel stats moves shs now h
    simp only [efficiencyScore, h, pickMaxBy, List.foldl_nil]

/-- Witness for C1 at concrete inputs: the empty telemetry stream. -/
theorem scores_in_range_and_defaults_witness :
    (sensorHealth (fun q => q) "d" [] 0).score = 50 ∧
    (efficiencyScore "d" [] [] [] 50 0).efficiency_score = 0 :=
  ⟨scores_in_range_and_defaults.2.2.2.1 (fun q => q) "d" [] 0 rfl,
   scores_in_range_and_defaults.2.2.2.2 "d" [] [] [] 50 0 rfl⟩

/-! ## Claim C9: Contamination/Shading Estimator values -/

/-- C9: with a single slot whose baseline average power is 10 W and recent
average 4 W the estimator returns dust probability 0.72 and shading
probability 0; and whenever no slot has positive baseline average power,
both probabilities are 0. -/
theorem dust_shading_estimator :
    (∀ sqrtF : ℚ → ℚ,
      dustShading sqrtF "dev"
        [⟨"dev", -259200, 0, 0, 0, 10, 0, 0, 0, 0, 0⟩,
         ⟨"dev", -86400, 0, 0, 0, 4, 0, 0, 0, 0, 0⟩] 0
        = ((0.72 : ℚ), (0 : ℚ))) ∧
    (∀ (sqrtF : ℚ → ℚ) (d : String) (tel : List Telemetry) (now : ℚ),
      (∀ b ∈ slotPower d tel (now - 9 * 86400) (now - 2 * 86400),
        b.2.1 ≤ 0) →
      dustShading sqrtF d tel now = (0, 0)) := by
  constructor
  · intro sqrtF
    have hr : slotRatios "dev"
        [⟨"dev", -259200, 0, 0, 0, 10, 0, 0, 0, 0, 0⟩,
         ⟨"dev", -86400, 0, 0, 0, 4, 0, 0, 0, 0, 0⟩] 0 = [2/5] := by
      norm_num [slotRatios, slotPower, firstOccs, meanQ, List.find?,
        List.filterMap_cons]
    unfold dustShading
    rw [hr]
    norm_num [meanQ, clampQ, roundTo, round_eq]
  · intro sqrtF d tel now h
    have hr : slotRatios d tel now = [] := by
      simp only [slotRatios]
      rw [List.filterMap_eq_nil_iff]
      intro b hb
      rw [if_pos (h b hb)]
    unfold dustShading
    rw [hr]
    rfl

/-- Witness for C9's no-positive-baseline branch at a concrete input. -/
theorem dust_shading_estimator_witness :
    dustShading (fun q => q) "x" [] 0 = (0, 0) :=
  dust_shading_estimator.2 (fun q => q) "x" [] 0 (by decide)

/-! ## Claims C4 and C10: Net-Gain Projector -/

/-- C4 counterexample: with `max_moves_per_hour = 0` the code decides MOVE
even though the trailing-hour move count (0) is not strictly below the cap
(0) — the code treats a zero cap as "no cap", the claim's rule says HOLD. -/
theorem net_gain_cap_zero_counterexample :
    (netGainProjection "dev" [⟨"dev", 0, 0, 0, 0, 6, 0, 0, 0, 0, 0⟩]
        [⟨"dev", 0, 10, 1, 8, 0, 0⟩] []
        (some ⟨some 0, some 0, some 50, some 2⟩) 0).map
      (fun r => r.decision) = some "MOVE" ∧
    ¬ ((movesLastHour "dev" [] 0 : ℤ) <
        (ensureSettings
          (some ⟨some 0, some 0, some 50, some 2⟩)).max_moves_per_hour.getD
          0) := by
  constructor
  · norm_num [netGainProjection, latestTelemetry, ensureSettings,
      defaultSettings, statsForSlot, currentPowerOf, currentAnglePower,
      expectedGainOf, recommendedAngleOf, motorCostOf, netGainOf,
      estimateMoveDuration, movesLastHour, pickMaxBy, roundTo, round_eq,
      List.find?, List.insertionSort, List.orderedInsert,
      List.filterMap_cons]
  · norm_num [movesLastHour, ensureSettings]

/-- C4 (amended): the projector decides MOVE exactly when net gain ≥ the
configured minimum, the move-rate cap is 0 (treated as "no cap") or the
trailing-hour move count is strictly below it, and the recommended angle
differs from the current one; on the spec's scenario (best 8 W, current
6 W, motor 50 W, 2 s average move) it reports motor cost 0.028 Wh, net
gain 1.972 Wh and MOVE. -/
theorem net_gain_projector_decision :
    (∀ (device_id : String) (tel : List Telemetry) (stats : List SlotStat)
        (moves : List MovementLog) (settings? : Option SettingsRow)
        (now : ℚ) (latest : Telemetry),
      latestTelemetry device_id tel = some latest →
      ∃ r, netGainProjection device_id tel stats moves settings? now
          = some r ∧
        (r.decision = "MOVE" ↔
          (netGainOf device_id stats moves (ensureSettings settings?)
              latest ≥ (ensureSettings settings?).min_net_gain_wh.getD 0 ∧
            ((ensureSettings settings?).max_moves_per_hour.getD 0 = 0 ∨
              ((movesLastHour device_id moves now : ℤ) <
                (ensureSettings settings?).max_moves_per_hour.getD 0)) ∧
            recommendedAngleOf device_id stats latest
              ≠ latest.angle_deg))) ∧
    netGainProjection "dev" [⟨"dev", 0, 0, 0, 0, 6, 0, 0, 0, 0, 0⟩]
        [⟨"dev", 0, 10, 1, 8, 0, 0⟩] [⟨"dev", -100, some 2, some 0⟩]
        none 0
      = some ⟨0, 0, 10, 2, (0.028 : ℚ), (1.972 : ℚ), "MOVE"⟩ := by
  constructor
  · intro device_id tel stats moves settings? now latest h
    have hres : netGainProjection device_id tel stats moves settings? now
        = some ⟨latest.slot, latest.angle_deg,
            recommendedAngleOf device_id stats latest,
            roundTo 3 (expectedGainOf device_id stats latest),
            roundTo 3 (motorCostOf device_id moves
              (ensureSettings settings?)),
            roundTo 3 (netGainOf device_id stats moves
              (ensureSettings settings?) latest),
            if netGainOf device_id stats moves (ensureSettings settings?)
                  latest ≥
                (ensureSettings settings?).min_net_gain_wh.getD 0 ∧
                ((ensureSettings settings?).max_moves_per_hour.getD 0 = 0 ∨
                  ((movesLastHour device_id moves now : ℤ) <
                    (ensureSettings settings?).max_moves_per_hour.getD 0)) ∧
                recommendedAngleOf device_id stats latest ≠ latest.angle_deg
            then "MOVE" else "HOLD"⟩ := by
      unfold netGainProjection
      rw [h]
    refine ⟨_, hres, ?_⟩
    by_cases hc : netGainOf device_id stats moves (ensureSettings settings?)
          latest ≥ (ensureSettings settings?).min_net_gain_wh.getD 0 ∧
        ((ensureSettings settings?).max_moves_per_hour.getD 0 = 0 ∨
          ((movesLastHour device_id moves now : ℤ) <
            (ensureSettings settings?).max_moves_per_hour.getD 0)) ∧
        recommendedAngleOf device_id stats latest ≠ latest.angle_deg
    · simp [hc]
    · simp [hc]
  · norm_num [netGainProjection, latestTelemetry, ensureSettings,
      defaultSettings, statsForSlot, currentPowerOf, currentAnglePower,
      expectedGainOf, recommendedAngleOf, motorCostOf, netGainOf,
      estimateMoveDuration, movesLastHour, pickMaxBy, roundTo, round_eq,
      List.find?, List.insertionSort, List.orderedInsert,
      List.filterMap_cons]

/-- Witness for C4's amended decision rule at a concrete input. -/
theorem net_gain_projector_decision_witness :
    ∃ r, netGainProjection "dev" [⟨"dev", 0, 0, 0, 0, 6, 0, 0, 0, 0, 0⟩]
        [⟨"dev", 0, 10, 1, 8, 0, 0⟩] [⟨"dev", -100, some 2, some 0⟩]
        none 0 = some r ∧
      (r.decision = "MOVE" ↔
        (netGainOf "dev" [⟨"dev", 0, 10, 1, 8, 0, 0⟩]
            [⟨"dev", -100, some 2, some 0⟩] (ensureSettings none)
            ⟨"dev", 0, 0, 0, 0, 6, 0, 0, 0, 0, 0⟩
            ≥ (ensureSettings none).min_net_gain_wh.getD 0 ∧
          ((ensureSettings none).max_moves_per_hour.getD 0 = 0 ∨
            ((movesLastHour "dev" [⟨"dev", -100, some 2, some 0⟩] 0 : ℤ) <
              (ensureSettings none).max_moves_per_hour.getD 0)) ∧
          recommendedAngleOf "dev" [⟨"dev", 0, 10, 1, 8, 0, 0⟩]
            ⟨"dev", 0, 0, 0, 0, 6, 0, 0, 0, 0, 0⟩
            ≠ (⟨"dev", 0, 0, 0, 0, 6, 0, 0, 0, 0, 0⟩ :
                Telemetry).angle_deg)) :=
  net_gain_projector_decision.1 "dev"
    [⟨"dev", 0, 0, 0, 0, 6, 0, 0, 0, 0, 0⟩] [⟨"dev", 0, 10, 1, 8, 0, 0⟩]
    [⟨"dev", -100, some 2, some 0⟩] none 0
    ⟨"dev", 0, 0, 0, 0, 6, 0, 0, 0, 0, 0⟩ rfl

/-- C10: without telemetry the projector returns `None`; with telemetry it
always returns a record deciding MOVE or HOLD, and with neither slot
statistics nor movement logs the gains and motor cost are 0 and the
recommended angle is the current one. -/
theorem net_gain_projection_totality :
    (∀ (device_id : String) (tel : List Telemetry) (stats : List SlotStat)
        (moves : List MovementLog) (settings? : Option SettingsRow)
        (now : ℚ),
      tel.filter (fun r => r.device_id = device_id) = [] →
      netGainProjection device_id tel stats moves settings? now = none) ∧
    (∀ (device_id : String) (tel : List Telemetry) (stats : List SlotStat)
        (moves : List MovementLog) (settings? : Option SettingsRow)
        (now : ℚ) (latest : Telemetry),
      latestTelemetry device_id tel = some latest →
      ∃ r, netGainProjection device_id tel stats moves settings? now
          = some r ∧ (r.decision = "MOVE" ∨ r.decision = "HOLD")) ∧
    (∀ (device_id : String) (tel : List Telemetry) (stats : List SlotStat)
        (moves : List MovementLog) (settings? : Option SettingsRow)
        (now : ℚ) (latest : Telemetry),
      latestTelemetry device_id tel = some latest →
      stats.filter (fun s => s.device_id = device_id) = [] →
      moves.filter (fun m => m.device_id = device_id) = [] →
      ∃ r, netGainProjection device_id tel stats moves settings? now
          = some r ∧ r.expected_gain_wh = 0 ∧ r.motor_cost_wh = 0 ∧
          r.recommended_angle = latest.angle_deg) := by
  refine ⟨?_, ?_, ?_⟩
  · intro device_id tel stats moves settings? now h
    have hlat : latestTelemetry device_id tel = none := by
      unfold latestTelemetry
      rw [h]
      rfl
    unfold netGainProjection
    rw [hlat]
  · intro device_id tel stats moves settings? now latest h
    have hres : netGainProjection device_id tel stats moves settings? now
        = some ⟨latest.slot, latest.angle_deg,
            recommendedAngleOf device_id stats latest,
            roundTo 3 (expectedGainOf device_id stats latest),
            roundTo 3 (motorCostOf device_id moves
              (ensureSettings settings?)),
            roundTo 3 (netGainOf device_id stats moves
              (ensureSettings settings?) latest),
            if netGainOf device_id stats moves (ensureSettings settings?)
                  latest ≥
                (ensureSettings settings?).min_net_gain_wh.getD 0 ∧
                ((ensureSettings settings?).max_moves_per_hour.getD 0 = 0 ∨
                  ((movesLastHour device_id moves now : ℤ) <
                    (ensureSettings settings?).max_moves_per_hour.getD 0)) ∧
                recommendedAngleOf device_id stats latest ≠ latest.angle_deg
            then "MOVE" else "HOLD"⟩ := by
      unfold netGainProjection
      rw [h]
    refine ⟨_, hres, ?_⟩
    by_cases hc : netGainOf device_id stats moves (ensureSettings settings?)
          latest ≥ (ensureSettings settings?).min_net_gain_wh.getD 0 ∧
        ((ensureSettings settings?).max_moves_per_hour.getD 0 = 0 ∨
          ((movesLastHour device_id moves now : ℤ) <
            (ensureSettings settings?).max_moves_per_hour.getD 0)) ∧
        recommendedAngleOf device_id stats latest ≠ latest.angle_deg
    · simp [hc]
    · simp [hc]
  · intro device_id tel stats moves settings? now latest h hstats hmoves
    have hss : statsForSlot device_id stats latest.slot = [] := by
      unfold statsForSlot
      rw [List.filter_eq_nil_iff]
      intro s hs
      have hnd := List.filter_eq_nil_iff.mp hstats s hs
      simp only [decide_eq_true_eq] at hnd ⊢
      intro hcontra
      exact hnd hcontra.1
    have he : expectedGainOf device_id stats latest = 0 := by
      unfold expectedGainOf
      rw [hss]
      rfl
    have hrec : recommendedAngleOf device_id stats latest
        = latest.angle_deg := by
      unfold recommendedAngleOf
      rw [hss]
      rfl
    have hdur : estimateMoveDuration device_id moves = 0 := by
      unfold estimateMoveDuration
      rw [hmoves]
      rfl
    have hmc : motorCostOf device_id moves (ensureSettings settings?)
        = 0 := by
      unfold motorCostOf
      rw [hdur]
      simp
    have hres : netGainProjection device_id tel stats moves settings? now
        = some ⟨latest.slot, latest.angle_deg,
            recommendedAngleOf device_id stats latest,
            roundTo 3 (expectedGainOf device_id stats latest),
            roundTo 3 (motorCostOf device_id moves
              (ensureSettings settings?)),
            roundTo 3 (netGainOf device_id stats moves
              (ensureSettings settings?) latest),
            if netGainOf device_id stats moves (ensureSettings settings?)
                  latest ≥
                (ensureSettings settings?).min_net_gain_wh.getD 0 ∧
                ((ensureSettings settings?).max_moves_per_hour.getD 0 = 0 ∨
                  ((movesLastHour device_id moves now : ℤ) <
                    (ensureSettings settings?).max_moves_per_hour.getD 0)) ∧
                recommendedAngleOf device_id stats latest ≠ latest.angle_deg
            then "MOVE" else "HOLD"⟩ := by
      unfold netGainProjection
      rw [h]
    refine ⟨_, hres, ?_, ?_, ?_⟩
    · rw [he, roundTo_zero]
    · rw [hmc, roundTo_zero]
    · exact hrec

/-- Witness for C10 at concrete inputs: one device with a single sample and
no statistics or movements, and one with no telemetry. -/
theorem net_gain_projection_totality_witness :
    netGainProjection "dev" [] [] [] none 0 = none ∧
    (∃ r, netGainProjection "dev" [⟨"dev", 0, 0, 0, 0, 6, 0, 0, 0, 0, 0⟩]
        [] [] none 0 = some r ∧ r.expected_gain_wh = 0 ∧
        r.motor_cost_wh = 0 ∧
        r.recommended_angle
          = (⟨"dev", 0, 0, 0, 0, 6, 0, 0, 0, 0, 0⟩ :
              Telemetry).angle_deg) :=
  ⟨net_gain_projection_totality.1 "dev" [] [] [] none 0 rfl,
   net_gain_projection_totality.2.2 "dev"
    [⟨"dev", 0, 0, 0, 0, 6, 0, 0, 0, 0, 0⟩] [] [] none 0
    ⟨"dev", 0, 0, 0, 0, 6, 0, 0, 0, 0, 0⟩ rfl rfl rfl⟩

/-! ## Claim C7: Sensor-Fault Pattern Detector -/

/-- C7 counterexample: two `sensor_fault` events 10 minutes apart.  The
code counts events in a *forward* 1-hour window including the event
itself, so it records a fault at the first event; under the claim's rule
(≥ 2 *other* events in the trailing window ending at the event) no event
triggers. -/
theorem sensor_fault_pattern_counterexample :
    (sensorFaultPatterns "dev"
        [⟨"dev", 0, "sensor_fault"⟩, ⟨"dev", 600, "sensor_fault"⟩] []
        1000).1.map (fun f => (f.fault_type, f.severity, f.ts))
      = [("sensor_wiring_instability", "warn", (0 : ℚ))] ∧
    sensorFaultTriggerClaim "dev"
        [⟨"dev", 0, "sensor_fault"⟩, ⟨"dev", 600, "sensor_fault"⟩] 1000
      = none := by
  constructor
  · norm_num [sensorFaultPatterns, sensorFaultEvents, sameHourCount,
      recordFault, faultMatches, pickMaxBy, ilikeEq, List.insertionSort,
      List.orderedInsert, List.find?]
  · norm_num [sensorFaultTriggerClaim, sensorFaultEvents, ilikeEq,
      List.insertionSort, List.orderedInsert, List.find?]

/-- C7 (amended): with fewer than 2 trailing-24h `sensor_fault` events no
fault is recorded; at most one fault is recorded per run; the first event
(in ascending order) whose 1-hour window *starting* at it contains ≥ 2
`sensor_fault` events (itself included) records exactly one fresh
`sensor_wiring_instability` fault of severity warn at its timestamp (the
fault table assumed free of prior faults of that type); and with no such
event nothing is recorded. -/
theorem sensor_fault_pattern_detection (device_id : String)
    (events : List Event) (faults : List FaultRow) (now : ℚ)
    (hclean : ∀ g ∈ faults, g.fault_type ≠ "sensor_wiring_instability") :
    ((sensorFaultEvents device_id events now).length < 2 →
      sensorFaultPatterns device_id events faults now = ([], faults)) ∧
    (sensorFaultPatterns device_id events faults now).1.length ≤ 1 ∧
    (∀ ev, (sensorFaultEvents device_id events now).find?
        (fun e => 2 ≤ sameHourCount (sensorFaultEvents device_id events now)
          e) = some ev →
      ¬ (sensorFaultEvents device_id events now).length < 2 →
      ∃ f, sensorFaultPatterns device_id events faults now
          = ([f], faults ++ [f]) ∧
        f.fault_type = "sensor_wiring_instability" ∧ f.severity = "warn" ∧
        f.ts = ev.ts) ∧
    ((sensorFaultEvents device_id events now).find?
        (fun e => 2 ≤ sameHourCount (sensorFaultEvents device_id events now)
          e) = none →
      sensorFaultPatterns device_id events faults now = ([], faults)) := by
  refine ⟨?_, ?_, ?_, ?_⟩
  · intro hlen
    simp [sensorFaultPatterns, hlen]
  · by_cases hlen : (sensorFaultEvents device_id events now).length < 2
    · simp [sensorFaultPatterns, hlen]
    · cases hf : (sensorFaultEvents device_id events now).find?
          (fun e => 2 ≤ sameHourCount
            (sensorFaultEvents device_id events now) e) with
      | none => simp [sensorFaultPatterns, hlen, hf]
      | some ev => simp [sensorFaultPatterns, hlen, hf]
  · intro ev hf hlen
    have hfil : faults.filter
        (faultMatches device_id "sensor_wiring_instability" ev.ts) = [] := by
      rw [List.filter_eq_nil_iff]
      intro g hg
      simp only [faultMatches, decide_eq_true_eq]
      rintro ⟨_, hft, _⟩
      exact hclean g hg hft
    have hrf : recordFault faults device_id ev.ts
        "sensor_wiring_instability" "warn"
        (toString (sameHourCount (sensorFaultEvents device_id events now)
          ev))
        = (⟨faults.length, device_id, ev.ts, "sensor_wiring_instability",
            "warn", toString (sameHourCount
              (sensorFaultEvents device_id events now) ev), none⟩,
           faults ++ [⟨faults.length, device_id, ev.ts,
            "sensor_wiring_instability", "warn",
            toString (sameHourCount (sensorFaultEvents device_id events now)
              ev), none⟩]) := by
      unfold recordFault
      rw [hfil]
      rfl
    refine ⟨⟨faults.length, device_id, ev.ts, "sensor_wiring_instability",
      "warn", toString (sameHourCount (sensorFaultEvents device_id events
        now) ev), none⟩, ?_, rfl, rfl, rfl⟩
    unfold sensorFaultPatterns
    rw [if_neg hlen, hf]
    simp only [hrf]
  · intro hf
    by_cases hlen : (sensorFaultEvents device_id events now).length < 2
    · simp [sensorFaultPatterns, hlen]
    · simp [sensorFaultPatterns, hlen, hf]

/-- Witness for C7's amended rule at the concrete two-event input. -/
theorem sensor_fault_pattern_detection_witness :
    ∃ f, sensorFaultPatterns "dev"
        [⟨"dev", 0, "sensor_fault"⟩, ⟨"dev", 600, "sensor_fault"⟩] [] 1000
        = ([f], [] ++ [f]) ∧
      f.fault_type = "sensor_wiring_instability" ∧ f.severity = "warn" ∧
      f.ts = (⟨"dev", 0, "sensor_fault"⟩ : Event).ts :=
  (sensor_fault_pattern_detection "dev"
      [⟨"dev", 0, "sensor_fault"⟩, ⟨"dev", 600, "sensor_fault"⟩] [] 1000
      (by simp)).2.2.1 ⟨"dev", 0, "sensor_fault"⟩
    (by norm_num [sensorFaultEvents, sameHourCount, ilikeEq,
      List.insertionSort, List.orderedInsert, List.find?])
    (by norm_num [sensorFaultEvents, ilikeEq, List.insertionSort,
      List.orderedInsert])

/-! ## Claim C5: Windowed Aggregator lemmas -/

theorem firstOccs_nodup_aux [DecidableEq α] :
    ∀ (l acc : List α), acc.Nodup →
      (l.foldl (fun acc k => if k ∈ acc then acc else acc ++ [k])
        acc).Nodup := by
  intro l
  induction l with
  | nil => intro acc h; exact h
  | cons x xs ih =>
    intro acc h
    simp only [List.foldl_cons]
    by_cases hx : x ∈ acc
    · rw [if_pos hx]
      exact ih acc h
    · rw [if_neg hx]
      refine ih _ ?_
      rw [List.nodup_append]
      exact ⟨h, List.nodup_singleton x, by
        intro y hy
        simp only [List.mem_singleton]
        intro hyx
        exact hx (hyx ▸ hy)⟩

theorem firstOccs_nodup [DecidableEq α] (l : List α) :
    (firstOccs l).Nodup :=
  firstOccs_nodup_aux l [] List.nodup_nil

theorem find?_append_all_neg (p : α → Bool) (l' : List α) :
    ∀ l : List α, l.any p = false → (l ++ l').find? p = l'.find? p := by
  intro l
  induction l with
  | nil => intro _; rfl
  | cons y ys ih =>
    intro h
    simp only [List.any_cons, Bool.or_eq_false_iff] at h
    rw [List.cons_append, List.find?_cons_of_neg _ (by simp [h.1]), ih h.2]

theorem find?_append_singleton_neg (p : α → Bool) (x : α)
    (hx : p x = false) :
    ∀ l : List α, (l ++ [x]).find? p = l.find? p := by
  intro l
  induction l with
  | nil => simp [List.find?, hx]
  | cons y ys ih =>
    by_cases hy : p y
    · rw [List.cons_append, List.find?_cons_of_pos _ hy,
        List.find?_cons_of_pos _ hy]
    · rw [List.cons_append, List.find?_cons_of_neg _ hy,
        List.find?_cons_of_neg _ hy, ih]

theorem find?_updateFirst_self (p : α → Bool) (f : α → α)
    (hpf : ∀ x, p x = true → p (f x) = true) :
    ∀ (l : List α) (x : α), l.find? p = some x →
      (updateFirst p f l).find? p = some (f x) := by
  intro l
  induction l with
  | nil => intro x h; exact absurd h (by simp)
  | cons y ys ih =>
    intro x h
    by_cases hy : p y
    · rw [List.find?_cons_of_pos _ hy] at h
      have hxy : x = y := (Option.some_injective _ h).symm
      subst hxy
      simp only [updateFirst, if_pos hy]
      rw [List.find?_cons_of_pos _ (hpf x hy)]
    · rw [List.find?_cons_of_neg _ hy] at h
      simp only [updateFirst, if_neg hy]
      rw [List.find?_cons_of_neg _ hy]
      exact ih x h

theorem find?_updateFirst_of_ne (p q : α → Bool) (f : α → α)
    (h1 : ∀ x, p (f x) = p x) (h2 : ∀ x, q x = true → p x = false) :
    ∀ l : List α, (updateFirst q f l).find? p = l.find? p := by
  intro l
  induction l with
  | nil => rfl
  | cons y ys ih =>
    by_cases hq : q y
    · simp only [updateFirst, if_pos hq]
      rw [List.find?_cons_of_neg _ (by simp [h1, h2 y hq]),
        List.find?_cons_of_neg _ (by simp [h2 y hq])]
    · simp only [updateFirst, if_neg hq]
      by_cases hy : p y
      · rw [List.find?_cons_of_pos _ hy, List.find?_cons_of_pos _ hy]
      · rw [List.find?_cons_of_neg _ hy, List.find?_cons_of_neg _ hy, ih]

theorem map_updateFirst_of_find? (g : α → β) (p : α → Bool) (f : α → α) :
    ∀ l : List α, (∀ x, l.find? p = some x → g (f x) = g x) →
      (updateFirst p f l).map g = l.map g := by
  intro l
  induction l with
  | nil => intro _; rfl
  | cons y ys ih =>
    intro h
    by_cases hy : p y
    · simp only [updateFirst, if_pos hy, List.map_cons]
      rw [h y (List.find?_cons_of_pos _ hy)]
    · simp only [updateFirst, if_neg hy, List.map_cons]
      rw [ih (fun x hx => h x (by rw [List.find?_cons_of_neg _ hy]; exact hx))]

theorem statKey_of_statData {s t : SlotStat} (h : statData s = statData t)
    (d : String) (sl : ℤ) (a : ℚ) :
    statKey d sl a s = statKey d sl a t := by
  simp only [statData, Prod.ext_iff] at h
  simp only [statKey, h.1, h.2.1, h.2.2.1]

theorem find?_congr_statData (d : String) (sl : ℤ) (a : ℚ) :
    ∀ (s t : List SlotStat), s.map statData = t.map statData →
      ((s.find? (statKey d sl a)).map statData)
        = ((t.find? (statKey d sl a)).map statData) := by
  intro s
  induction s with
  | nil =>
    intro t h
    have : t = [] := by
      cases t with
      | nil => rfl
      | cons y ys => exact absurd h.symm (by simp)
    rw [this]
  | cons x xs ih =>
    intro t h
    cases t with
    | nil => exact absurd h (by simp)
    | cons y ys =>
      simp only [List.map_cons, List.cons.injEq] at h
      by_cases hx : statKey d sl a x
      · rw [List.find?_cons_of_pos _ hx,
          List.find?_cons_of_pos _ (by rw [← statKey_of_statData h.1]; exact hx)]
        simp [h.1]
      · rw [List.find?_cons_of_neg _ hx,
          List.find?_cons_of_neg _ (by rw [← statKey_of_statData h.1]; exact hx)]
        exact ih ys h.2

/-- The column values `generate_slot_statistics` stores for a group
(`last_updated` aside). -/
def writtenData (sqrtF : ℚ → ℚ) (row : AggRow) (a : ℚ) :
    String × ℤ × ℚ × ℕ × ℚ × ℚ :=
  (row.device_id, row.slot, a, row.cnt, row.avg_p,
    sqrtF (max (row.avg_p2 - row.avg_p * row.avg_p) 0))

theorem upsert_establishes (sqrtF : ℚ → ℚ) (now : ℚ)
    (stats : List SlotStat) (row : AggRow) (a : ℚ)
    (hbin : row.angle_bin = some a) :
    ((upsertStat sqrtF now stats row).find?
      (statKey row.device_id row.slot a)).map statData
      = some (writtenData sqrtF row a) := by
  unfold upsertStat
  rw [hbin]
  dsimp only
  by_cases hany : stats.any (statKey row.device_id row.slot a)
  · rw [if_pos hany]
    obtain ⟨x, hx⟩ : ∃ x, stats.find? (statKey row.device_id row.slot a)
        = some x := by
      cases hfx : stats.find? (statKey row.device_id row.slot a) with
      | some y => exact ⟨y, rfl⟩
      | none =>
        rw [List.find?_eq_none] at hfx
        obtain ⟨y, hy, hpy⟩ := List.any_eq_true.mp hany
        exact absurd hpy (hfx y hy)
    rw [find?_updateFirst_self _ _ (fun z hz => by
      simp only [statKey, decide_eq_true_eq] at hz ⊢
      exact hz) stats x hx]
    have hkx := List.find?_some hx
    simp only [statKey, decide_eq_true_eq] at hkx
    simp [statData, writtenData, hkx.1, hkx.2.1, hkx.2.2]
  · rw [if_neg hany]
    have hfalse : stats.any (statKey row.device_id row.slot a) = false := by
      simpa using hany
    rw [find?_append_all_neg _ _ stats hfalse]
    rw [List.find?_cons_of_pos _ (by simp [statKey])]
    simp [statData, writtenData]

theorem upsert_preserves_other (sqrtF : ℚ → ℚ) (now : ℚ)
    (stats : List SlotStat) (row : AggRow) (d : String) (sl : ℤ) (a : ℚ)
    (hne : keyTriple row ≠ (d, sl, some a)) :
    (upsertStat sqrtF now stats row).find? (statKey d sl a)
      = stats.find? (statKey d sl a) := by
  unfold upsertStat
  cases hbin : row.angle_bin with
  | none => rfl
  | some b =>
    dsimp only
    have hkey : ¬ (row.device_id = d ∧ row.slot = sl ∧ b = a) := by
      rintro ⟨h1, h2, h3⟩
      exact hne (by simp [keyTriple, h1, h2, hbin, h3])
    by_cases hany : stats.any (statKey row.device_id row.slot b)
    · rw [if_pos hany]
      apply find?_updateFirst_of_ne
      · intro x
        simp [statKey]
      · intro x hx
        simp only [statKey, decide_eq_true_eq] at hx
        simp only [statKey, decide_eq_false_iff_not]
        rintro ⟨g1, g2, g3⟩
        exact hkey ⟨hx.1 ▸ g1, hx.2.1 ▸ g2, hx.2.2 ▸ g3⟩
    · rw [if_neg hany]
      apply find?_append_singleton_neg
      simp only [statKey, decide_eq_false_iff_not]
      rintro ⟨g1, g2, g3⟩
      exact hkey ⟨g1, g2, g3⟩

theorem fold_preserves_other (sqrtF : ℚ → ℚ) (now : ℚ) (d : String)
    (sl : ℤ) (a : ℚ) :
    ∀ (rows : List AggRow) (stats : List SlotStat),
      (∀ row ∈ rows, keyTriple row ≠ (d, sl, some a)) →
      (rows.foldl (upsertStat sqrtF now) stats).find? (statKey d sl a)
        = stats.find? (statKey d sl a) := by
  intro rows
  induction rows with
  | nil => intro stats _; rfl
  | cons r rows ih =>
    intro stats h
    simp only [List.foldl_cons]
    rw [ih _ (fun row hrow => h row (List.mem_cons_of_mem r hrow)),
      upsert_preserves_other sqrtF now stats r d sl a
        (h r (List.mem_cons_self r rows))]

theorem run_establishes (sqrtF : ℚ → ℚ) (now : ℚ) :
    ∀ (rows : List AggRow) (stats : List SlotStat),
      (rows.map keyTriple).Nodup →
      ∀ row ∈ rows, ∀ a, row.angle_bin = some a →
      ((rows.foldl (upsertStat sqrtF now) stats).find?
        (statKey row.device_id row.slot a)).map statData
        = some (writtenData sqrtF row a) := by
  intro rows
  induction rows with
  | nil => intro stats _ row hrow; exact absurd hrow (List.not_mem_nil row)
  | cons r rows ih =>
    intro stats hnodup row hrow a hbin
    simp only [List.map_cons, List.nodup_cons] at hnodup
    rcases List.mem_cons.mp hrow with hreq | hmem
    · subst hreq
      simp only [List.foldl_cons]
      rw [fold_preserves_other sqrtF now row.device_id row.slot a rows
        (upsertStat sqrtF now stats row) (fun row' hrow' => by
          intro hcontra
          apply hnodup.1
          have hkr : keyTriple row = keyTriple row' := by
            rw [hcontra]
            simp [keyTriple, hbin]
          rw [hkr]
          exact List.mem_map_of_mem keyTriple hrow')]
      exact upsert_establishes sqrtF now stats row a hbin
    · simp only [List.foldl_cons]
      exact ih _ hnodup.2 row hmem a hbin

theorem upsert_preserves_data (sqrtF : ℚ → ℚ) (now : ℚ)
    (stats : List SlotStat) (row : AggRow)
    (h : ∀ a, row.angle_bin = some a →
      ((stats.find? (statKey row.device_id row.slot a)).map statData)
        = some (writtenData sqrtF row a)) :
    (upsertStat sqrtF now stats row).map statData = stats.map statData := by
  unfold upsertStat
  cases hbin : row.angle_bin with
  | none => rfl
  | some a =>
    dsimp only
    have hfind := h a hbin
    obtain ⟨x, hx, hxdata⟩ : ∃ x,
        stats.find? (statKey row.device_id row.slot a) = some x ∧
          statData x = writtenData sqrtF row a := by
      cases hfx : stats.find? (statKey row.device_id row.slot a) with
      | none => rw [hfx] at hfind; exact absurd hfind (by simp)
      | some y =>
        refine ⟨y, rfl, ?_⟩
        rw [hfx] at hfind
        simpa using hfind
    have hany : stats.any (statKey row.device_id row.slot a) = true :=
      List.any_eq_true.mpr
        ⟨x, List.mem_of_find?_eq_some hx, List.find?_some hx⟩
    rw [if_pos hany]
    apply map_updateFirst_of_find?
    intro y hy
    have hyx : y = x := by
      rw [hx] at hy
      exact (Option.some_injective _ hy.symm)
    subst hyx
    simp only [writtenData, statData, Prod.ext_iff] at hxdata
    simp [statData, hxdata.2.2.2.1, hxdata.2.2.2.2.1, hxdata.2.2.2.2.2]

theorem second_run (sqrtF : ℚ → ℚ) (t2 : ℚ) :
    ∀ (rows : List AggRow) (s1 current : List SlotStat),
      current.map statData = s1.map statData →
      (∀ row ∈ rows, ∀ a, row.angle_bin = some a →
        ((s1.find? (statKey row.device_id row.slot a)).map statData)
          = some (writtenData sqrtF row a)) →
      (rows.foldl (upsertStat sqrtF t2) current).map statData
        = s1.map statData := by
  intro rows
  induction rows with
  | nil => intro s1 current hcur _; exact hcur
  | cons r rows ih =>
    intro s1 current hcur hfacts
    simp only [List.foldl_cons]
    have hr : (upsertStat sqrtF t2 current r).map statData
        = current.map statData := by
      apply upsert_preserves_data
      intro a hbin
      rw [find?_congr_statData r.device_id r.slot a current s1 hcur]
      exact hfacts r (List.mem_cons_self r rows) a hbin
    exact ih s1 _ (hr.trans hcur)
      (fun row hrow a hbin =>
        hfacts row (List.mem_cons_of_mem r hrow) a hbin)

theorem aggGroups_keys_nodup (days : ℚ) (tel : List Telemetry) (now : ℚ) :
    ((aggGroups days tel now).map keyTriple).Nodup := by
  unfold aggGroups
  rw [List.map_map]
  apply List.Nodup.map ?_ (firstOccs_nodup _)
  rintro ⟨d1, s1, a1⟩ ⟨d2, s2, a2⟩ h
  simp only [Function.comp, keyTriple, Prod.mk.injEq,
    Option.some.injEq] at h
  simp [h.1, h.2.1, h.2.2]

/-- C5: re-running the Windowed Aggregator over unchanged data (same
groups) leaves every stored `sample_count` / `avg_power` / `std_power`
unchanged (`last_updated` aside); each group's stored standard deviation
is `sqrtF` of `avg(p²) − avg(p)²` clamped at zero; and groups whose angle
bin is NULL are skipped without writing a row. -/
theorem slot_statistics_recompute :
    (∀ (sqrtF : ℚ → ℚ) (days : ℚ) (tel : List Telemetry)
        (stats : List SlotStat) (t1 t2 : ℚ),
      aggGroups days tel t1 = aggGroups days tel t2 →
      (generateSlotStatistics sqrtF days tel
        (generateSlotStatistics sqrtF days tel stats t1) t2).map statData
        = (generateSlotStatistics sqrtF days tel stats t1).map statData) ∧
    (∀ (sqrtF : ℚ → ℚ) (days : ℚ) (tel : List Telemetry)
        (stats : List SlotStat) (now : ℚ),
      ∀ row ∈ aggGroups days tel now, ∀ a, row.angle_bin = some a →
      ∃ s, (generateSlotStatistics sqrtF days tel stats now).find?
          (statKey row.device_id row.slot a) = some s ∧
        s.sample_count = row.cnt ∧ s.avg_power = row.avg_p ∧
        s.std_power
          = sqrtF (max (row.avg_p2 - row.avg_p * row.avg_p) 0)) ∧
    (∀ (sqrtF : ℚ → ℚ) (now : ℚ) (stats : List SlotStat) (row : AggRow),
      row.angle_bin = none → upsertStat sqrtF now stats row = stats) := by
  refine ⟨?_, ?_, ?_⟩
  · intro sqrtF days tel stats t1 t2 hgroups
    unfold generateSlotStatistics
    rw [← hgroups]
    exact second_run sqrtF t2 (aggGroups days tel t1) _ _ rfl
      (fun row hrow a hbin =>
        run_establishes sqrtF t1 (aggGroups days tel t1) stats
          (aggGroups_keys_nodup days tel t1) row hrow a hbin)
  · intro sqrtF days tel stats now row hrow a hbin
    have h : ((generateSlotStatistics sqrtF days tel stats now).find?
        (statKey row.device_id row.slot a)).map statData
        = some (writtenData sqrtF row a) :=
      run_establishes sqrtF now (aggGroups days tel now) stats
        (aggGroups_keys_nodup days tel now) row hrow a hbin
    cases hfx : (generateSlotStatistics sqrtF days tel stats now).find?
        (statKey row.device_id row.slot a) with
    | none =>
      rw [hfx] at h
      exact absurd h (by simp)
    | some s =>
      rw [hfx] at h
      refine ⟨s, rfl, ?_, ?_, ?_⟩ <;>
        · simp only [Option.map_some', Option.some.injEq, statData,
            writtenData, Prod.ext_iff] at h
          simp [h.2.2.2.1, h.2.2.2.2.1, h.2.2.2.2.2]
  · intro sqrtF now stats row hbin
    unfold upsertStat
    rw [hbin]

/-- Witness for C5 at a concrete input: one telemetry sample, two runs. -/
theorem slot_statistics_recompute_witness :
    (generateSlotStatistics (fun q => q) 7
        [⟨"dev", 0, 0, 0, 0, 5, 0, 0, 0, 0, 0⟩]
        (generateSlotStatistics (fun q => q) 7
          [⟨"dev", 0, 0, 0, 0, 5, 0, 0, 0, 0, 0⟩] [] 0) 0).map statData
      = (generateSlotStatistics (fun q => q) 7
          [⟨"dev", 0, 0, 0, 0, 5, 0, 0, 0, 0, 0⟩] [] 0).map statData ∧
    (∃ s, (generateSlotStatistics (fun q => q) 7
        [⟨"dev", 0, 0, 0, 0, 5, 0, 0, 0, 0, 0⟩] [] 0).find?
          (statKey "dev" 0 0) = some s ∧
        s.sample_count = 1 ∧ s.avg_power = 5 ∧
        s.std_power = (fun q : ℚ => q) (max (25 - 5 * 5) 0)) ∧
    upsertStat (fun q => q) 0 [] ⟨"d", 1, none, 3, 1, 2⟩ = [] :=
  ⟨slot_statistics_recompute.1 (fun q => q) 7
      [⟨"dev", 0, 0, 0, 0, 5, 0, 0, 0, 0, 0⟩] [] 0 0 rfl,
   slot_statistics_recompute.2.1 (fun q => q) 7
      [⟨"dev", 0, 0, 0, 0, 5, 0, 0, 0, 0, 0⟩] [] 0
      ⟨"dev", 0, some 0, 1, 5, 25⟩
      (by norm_num [aggGroups, firstOccs, meanQ, roundAngle]) 0 rfl,
   slot_statistics_recompute.2.2 (fun q => q) 0 [] ⟨"d", 1, none, 3, 1, 2⟩
      rfl⟩

/-! ## Claim C8: Forecast module -/

theorem meanQ_nil : meanQ [] = 0 := by
  simp [meanQ]

theorem clampQ_zero_val (a : ℚ) : clampQ 0 0 a = 0 :=
  max_eq_left (min_le_right a 0)

/-- C8 counterexample: one in-window sample of 6 W and a stored daily
summary of 0 Wh.  Summaries are available and their mean is 0, yet the
code skips the cap (`if avg_daily:` is falsy) and predicts 6 Wh — above
the mean the claim says the prediction is capped at. -/
theorem forecast_cap_skipped_counterexample :
    (forecastNextHour "dev" [⟨"dev", -1800, 0, 0, 0, 6, 10, 0, 0, 0, 0⟩]
        [⟨"dev", 0, 0⟩] 0).predicted_wh = 6 ∧
    latest4Summaries "dev" [⟨"dev", 0, 0⟩] ≠ [] ∧
    meanQ ((latest4Summaries "dev" [⟨"dev", 0, 0⟩]).map
      (fun s => s.energy_wh)) = 0 ∧
    ¬ ((forecastNextHour "dev" [⟨"dev", -1800, 0, 0, 0, 6, 10, 0, 0, 0, 0⟩]
        [⟨"dev", 0, 0⟩] 0).predicted_wh
      ≤ meanQ ((latest4Summaries "dev" [⟨"dev", 0, 0⟩]).map
        (fun s => s.energy_wh))) := by
  refine ⟨?_, ?_, ?_, ?_⟩ <;>
    norm_num [forecastNextHour, forecastRows, latest4Summaries, meanQ,
      clampQ, roundTo, round_eq, List.insertionSort, List.orderedInsert]

/-- C8 (amended): the forecast equals the claim's formula with the cap
applied only when the mean of the available daily summaries is non-zero
(the clamp is into `[0, mean]`); with no telemetry in the 2h window the
result is 0 Wh with confidence 0. -/
theorem forecast_formula :
    (∀ (device_id : String) (tel : List Telemetry)
        (summaries : List DailySummaryRow) (now : ℚ),
      forecastNextHour device_id tel summaries now
        = forecastSpec device_id tel summaries now) ∧
    (∀ (device_id : String) (tel : List Telemetry)
        (summaries : List DailySummaryRow) (now : ℚ),
      forecastRows device_id tel now = [] →
      forecastNextHour device_id tel summaries now = ⟨0, 0⟩) := by
  have havg : ∀ l : List ℚ, (if l = [] then 0 else meanQ l) = meanQ l := by
    intro l
    cases l with
    | nil => simp [meanQ]
    | cons x xs => simp
  have htrend : ∀ l : List ℚ, l ≠ [] →
      (if 2 ≤ l.length then l.getLastD 0 - l.headD 0 else 0)
        = l.getLastD 0 - l.headD 0 := by
    intro l hl
    match l with
    | [x] => simp
    | x :: y :: ys =>
      simp only [List.length_cons]
      rw [if_pos (by omega)]
  have hcap : ∀ (lat : List DailySummaryRow) (p : ℚ),
      (if lat ≠ [] then
        (if meanQ (lat.map (fun s => s.energy_wh)) ≠ 0 then
          clampQ p 0 (meanQ (lat.map (fun s => s.energy_wh))) else p)
       else p)
      = (if lat ≠ [] ∧ meanQ (lat.map (fun s => s.energy_wh)) ≠ 0 then
          clampQ p 0 (meanQ (lat.map (fun s => s.energy_wh))) else p) := by
    intro lat p
    by_cases h1 : lat ≠ [] <;>
      by_cases h2 : meanQ (lat.map (fun s => s.energy_wh)) ≠ 0 <;>
      simp [h1, h2]
  constructor
  · intro device_id tel summaries now
    by_cases h0 : forecastRows device_id tel now = []
    · simp only [forecastNextHour, forecastSpec, h0]
      simp [meanQ, roundTo_zero, clampQ_zero_val]
    · have hmapne : (forecastRows device_id tel now).map
          (fun r => r.e_wh_today) ≠ [] := by
        simpa using h0
      simp only [forecastNextHour, forecastSpec]
      rw [if_neg h0, havg, htrend _ hmapne, hcap]
  · intro device_id tel summaries now h
    simp [forecastNextHour, h]

/-- Witness for C8's empty-window default at a concrete input. -/
theorem forecast_formula_witness :
    forecastNextHour "d" [] [] 0 = ⟨0, 0⟩ :=
  forecast_formula.2 "d" [] [] 0 rfl

/-! ## Claim C6: per-device transaction isolation -/

theorem runAiJobs_append (pipeline : String → OrchDB → Option OrchDB)
    (l1 l2 : List String) (db : OrchDB) :
    runAiJobs pipeline (l1 ++ l2) db
      = runAiJobs pipeline l2 (runAiJobs pipeline l1 db) :=
  List.foldl_append _ _ l1 l2

theorem rowsFor_runAiJobs_not_mem
    (pipeline : String → OrchDB → Option OrchDB) (d : String)
    (hOwn : ∀ e db db', pipeline e db = some db' →
      ∀ d', d' ≠ e → rowsFor d' db' = rowsFor d' db) :
    ∀ (l : List String) (db : OrchDB), d ∉ l →
      rowsFor d (runAiJobs pipeline l db) = rowsFor d db := by
  intro l
  induction l with
  | nil => intro db _; rfl
  | cons e l ih =>
    intro db hd
    have hde : d ≠ e := fun hc => hd (hc ▸ List.mem_cons_self e l)
    have hdl : d ∉ l := fun hc => hd (List.mem_cons_of_mem e hc)
    show rowsFor d (runAiJobs pipeline l
      (match pipeline e db with
       | some s2 => s2
       | none => db)) = rowsFor d db
    cases hp : pipeline e db with
    | some db2 =>
      rw [ih _ hdl]
      exact hOwn e db db2 hp d hde
    | none => exact ih _ hdl

/-- C6: when one device's pipeline raises, the orchestrator's rollback
leaves that device's persisted rows exactly as before the run and the
overall run equals the run with that device skipped (other devices'
committed work is untouched); a successful device cycle commits its whole
write set at once.  `hOwn` states that a device's cycle only writes rows
of that device — true of every write in the source pipeline, which tags
each row with `device.device_id`. -/
theorem run_ai_jobs_isolation (pipeline : String → OrchDB → Option OrchDB)
    (hOwn : ∀ e db db', pipeline e db = some db' →
      ∀ d', d' ≠ e → rowsFor d' db' = rowsFor d' db)
    (pre post : List String) (d : String) (db0 : OrchDB)
    (hpre : d ∉ pre) (hpost : d ∉ post)
    (hfail : pipeline d (runAiJobs pipeline pre db0) = none) :
    runAiJobs pipeline (pre ++ d :: post) db0
      = runAiJobs pipeline (pre ++ post) db0 ∧
    rowsFor d (runAiJobs pipeline (pre ++ d :: post) db0)
      = rowsFor d db0 ∧
    (∀ db db', pipeline d db = some db' →
      runAiJobs pipeline [d] db = db') := by
  have hskip : runAiJobs pipeline (pre ++ d :: post) db0
      = runAiJobs pipeline (pre ++ post) db0 := by
    rw [runAiJobs_append, runAiJobs_append]
    show runAiJobs pipeline post
        (match pipeline d (runAiJobs pipeline pre db0) with
         | some s2 => s2
         | none => runAiJobs pipeline pre db0) = _
    rw [hfail]
  refine ⟨hskip, ?_, ?_⟩
  · rw [hskip, runAiJobs_append,
      rowsFor_runAiJobs_not_mem pipeline d hOwn post _ hpost,
      rowsFor_runAiJobs_not_mem pipeline d hOwn pre _ hpre]
  · intro db db' hp
    show (match pipeline d db with
          | some s2 => s2
          | none => db) = db'
    rw [hp]

/-- Witness for C6 at a concrete input: a pipeline that appends one
summary row per device but raises on device "bad". -/
theorem run_ai_jobs_isolation_witness :
    runAiJobs
        (fun dev db => if dev = "bad" then none
          else some ⟨db.faults, db.alerts, db.summaries ++ [⟨dev, "s"⟩]⟩)
        (["a"] ++ "bad" :: ["c"]) ⟨[], [], []⟩
      = runAiJobs
        (fun dev db => if dev = "bad" then none
          else some ⟨db.faults, db.alerts, db.summaries ++ [⟨dev, "s"⟩]⟩)
        (["a"] ++ ["c"]) ⟨[], [], []⟩ ∧
    rowsFor "bad"
        (runAiJobs
          (fun dev db => if dev = "bad" then none
            else some ⟨db.faults, db.alerts, db.summaries ++ [⟨dev, "s"⟩]⟩)
          (["a"] ++ "bad" :: ["c"]) ⟨[], [], []⟩)
      = rowsFor "bad" ⟨[], [], []⟩ := by
  have h := run_ai_jobs_isolation
    (fun dev db => if dev = "bad" then none
      else some ⟨db.faults, db.alerts, db.summaries ++ [⟨dev, "s"⟩]⟩)
    (by
      intro e db db' hp d' hne
      dsimp only at hp
      by_cases he : e = "bad"
      · rw [if_pos he] at hp
        exact absurd hp (by simp)
      · rw [if_neg he] at hp
        have hdb : (⟨db.faults, db.alerts, db.summaries ++ [⟨e, "s"⟩]⟩ :
            OrchDB) = db' := Option.some_injective _ hp
        rw [← hdb]
        have hne' : ¬ (e = d') := fun hc => hne hc.symm
        simp [rowsFor, List.filter_append, hne'])
    ["a"] ["c"] "bad" ⟨[], [], []⟩ (by decide) (by decide) rfl
  exact ⟨h.1, h.2.1⟩

end EnergyYield
